import Mathlib

/-!
Verification development for the Kozani perinatal-companion repository
(`src/app3.js`: browser router + express retrieval gateway).

The JavaScript source is shallowly embedded: pure functions become Lean
functions over `String` / `List Char`; the stateful router and the gateway
routes become explicit state-passing functions.  String operations model the
ASCII fragment of the JavaScript semantics (the character classes `\p{L}`,
`\p{N}`, `\s`, `\w` and `String.prototype.toLowerCase` are modelled on ASCII;
all concrete inputs used in theorems below are ASCII).  Regular expressions
from the source are modelled as word-boundary-respecting phrase matchers: a
regex `\b(a|b c)\b` becomes the list of its alternative phrases, matched at
positions whose neighbours are not word characters, exactly as the regex
engine does on space-separated ASCII text; `\s*` / ` ?` inside an alternation
is expanded to its zero-or-one-space variants.  Each matcher carries the
source regex in a comment so it can be diffed against `src/app3.js`.
-/

namespace Kozani

/-! ### Character primitives (ASCII model of the JS character classes) -/

/-- JS `\s` (ASCII fragment): space, tab, newline, carriage return. -/
def isWsChar (c : Char) : Bool :=
  c = ' ' || c = '\t' || c = '\n' || c = '\r'

/-- JS `\w`: ASCII letters, digits and underscore. -/
def isWordChar (c : Char) : Bool :=
  c.isAlphanum || c = '_'

/-- The apostrophe character, written by code so that source regexes
containing it can be transcribed. -/
def aposC : Char := Char.ofNat 39

/-! ### List-level string operations modelling the JS string methods -/

/-- `String.prototype.trim` (leading part): drop leading whitespace. -/
def dropWsL (l : List Char) : List Char := l.dropWhile isWsChar

/-- `String.prototype.trim`: drop leading and trailing whitespace. -/
def trimL (l : List Char) : List Char :=
  ((l.dropWhile isWsChar).reverse.dropWhile isWsChar).reverse

/-- `String.prototype.toLowerCase` (ASCII model). -/
def lowerL (l : List Char) : List Char := l.map Char.toLower

/-- `.replace(/\s+/g, " ")`: every maximal whitespace run becomes one space.
(A run of whitespace emits a single space when its last character is reached.) -/
def collapseWsL : List Char → List Char
  | [] => []
  | [c] => if isWsChar c then [' '] else [c]
  | c1 :: c2 :: rest =>
    if isWsChar c1 && isWsChar c2 then collapseWsL (c2 :: rest)
    else (if isWsChar c1 then ' ' else c1) :: collapseWsL (c2 :: rest)

/-- `a.includes(b)` prefix step: does `needle` occur at the head of `hay`? -/
def isPrefixL : List Char → List Char → Bool
  | [], _ => true
  | _ :: _, [] => false
  | p :: ps, c :: cs => p = c && isPrefixL ps cs

/-- `hay.includes(needle)`: case-sensitive substring containment. -/
def containsL (hay needle : List Char) : Bool :=
  match hay with
  | [] => isPrefixL needle []
  | _ :: rest => isPrefixL needle hay || containsL rest needle

/-- `hay.endsWith(needle)`. -/
def endsWithL (hay needle : List Char) : Bool :=
  isPrefixL needle.reverse hay.reverse

/-- `s.split(" ")` (split at every single space character). -/
def splitSpaceL : List Char → List (List Char)
  | [] => [[]]
  | c :: rest =>
    if c = ' ' then [] :: splitSpaceL rest
    else
      match splitSpaceL rest with
      | [] => [[c]]
      | w :: ws => (c :: w) :: ws

/-! ### String-level wrappers -/

def trimS (s : String) : String := ⟨trimL s.data⟩

def toLowerS (s : String) : String := ⟨lowerL s.data⟩

def containsSubS (hay needle : String) : Bool := containsL hay.data needle.data

def endsWithS (hay needle : String) : Bool := endsWithL hay.data needle.data

/-! ### Word-boundary phrase matching (model of `\b(p1|p2|...)\b` regexes)

A phrase occurs word-bounded in `t` if it occurs at a position whose
preceding character (if any) is not a word character and whose following
character (if any) is not a word character.  All phrases below start and end
with word characters, so this coincides with the regex `\b...\b` semantics. -/

/-- Boundary check for the character preceding a match position. -/
def okBefore : Option Char → Bool
  | none => true
  | some c => !isWordChar c

/-- Consume `ph` from the head of `t`; return the remaining suffix. -/
def matchRem : List Char → List Char → Option (List Char)
  | [], rest => some rest
  | _ :: _, [] => none
  | p :: ps, c :: cs => if p = c then matchRem ps cs else none

/-- Boundary check for the suffix following a match. -/
def okAfter : List Char → Bool
  | [] => true
  | c :: _ => !isWordChar c

/-- Does `ph` match word-bounded exactly at the start of `t`
(`prev` = character immediately before `t`, if any)? -/
def wbHere (ph : List Char) (prev : Option Char) (t : List Char) : Bool :=
  okBefore prev &&
    match matchRem ph t with
    | some rest => okAfter rest
    | none => false

/-- Scan `t` for a word-bounded occurrence of `ph`. -/
def wbAux (ph : List Char) (prev : Option Char) : List Char → Bool
  | [] => wbHere ph prev []
  | c :: cs => wbHere ph prev (c :: cs) || wbAux ph (some c) cs

/-- Word-bounded occurrence of `ph` anywhere in `t`. -/
def wbOccursL (ph t : List Char) : Bool := wbAux ph none t

/-- `\b(p1|p2|...)\b`: some alternative occurs word-bounded. -/
def anyWb (phs : List (List Char)) (t : List Char) : Bool :=
  phs.any fun p => wbOccursL p t

/-- `^(p1|p2|...)\b`: some alternative matches word-bounded at the start. -/
def anyWbStart (phs : List (List Char)) (t : List Char) : Bool :=
  phs.any fun p =>
    match matchRem p t with
    | some rest => okAfter rest
    | none => false

/-- One step of `\bA\b.*\bB\b`: an `A` alternative matches word-bounded here
and some `B` alternative occurs word-bounded in the remaining suffix. -/
def wbSeqHere (as bs : List (List Char)) (prev : Option Char) (t : List Char) : Bool :=
  as.any fun a =>
    okBefore prev &&
      match matchRem a t with
      | some rest => okAfter rest && bs.any fun b => wbAux b a.getLast? rest
      | none => false

/-- Scan for `\bA\b.*\bB\b` (used by the perinatal-psych regex). -/
def wbSeqAux (as bs : List (List Char)) (prev : Option Char) : List Char → Bool
  | [] => wbSeqHere as bs prev []
  | c :: cs => wbSeqHere as bs prev (c :: cs) || wbSeqAux as bs (some c) cs

def wbSeq (as bs : List (List Char)) (t : List Char) : Bool :=
  wbSeqAux as bs none t

/-- `a.*b` over plain substrings (no word boundaries): `a` occurs and `b`
occurs in the suffix after that occurrence of `a`. -/
def containsThenL (a b : List Char) : List Char → Bool
  | [] => false
  | c :: cs =>
    (match matchRem a (c :: cs) with
     | some rest => containsL rest b
     | none => false) || containsThenL a b cs

/-! ### The topic-lookup utilities of `app3.js` (`normalize` / `tokenize` /
`tokenOverlap`), shared verbatim with `appv1.js` -/

/-- Characters kept by `normalize`: `[^\p{L}\p{N}\s]` is replaced by a space
(ASCII model: letters, digits and whitespace are kept). -/
def isKeepChar (c : Char) : Bool := c.isAlphanum || isWsChar c

/-- `.replace(/[^\p{L}\p{N}\s]/gu, " ")`. -/
def stripBadL (l : List Char) : List Char :=
  l.map fun c => if isKeepChar c then c else ' '

/-- `normalize(s)` from `app3.js` lines 372-378 (= `appv1.js` 392-399):
lowercase, replace non letter/digit/whitespace by a space, collapse
whitespace runs to a single space, trim. -/
def normalize (s : String) : String :=
  ⟨trimL (collapseWsL (stripBadL (lowerL s.data)))⟩

/-- `tokenize(s) = normalize(s).split(" ").filter(Boolean)`. -/
def tokenize (s : String) : List String :=
  (((splitSpaceL (normalize s).data).map fun l => (⟨l⟩ : String)).filter
    fun w => w ≠ "")

/-- `tokenOverlap(a, b)`: cardinality of the intersection of the two token
sets (`new Set(a)` keeps the first occurrence of each word; only the count
is used). -/
def tokenOverlap (a b : List String) : Nat :=
  (a.eraseDups.filter fun w => b.contains w).length

/-! ### Knowledge-pack topics and `findTopicForMessage` (`app3.js` 387-409) -/

structure Topic where
  title : String
  keywords : List String
  aliases : List String
  tags : List String
  path : String
deriving DecidableEq, Repr

/-- The bag of words of a topic: `[title, ...keywords, ...aliases, ...tags].join(" ")`. -/
def topicBag (t : Topic) : String :=
  String.intercalate " " (t.title :: (t.keywords ++ t.aliases ++ t.tags))

/-- Token-set overlap of the query tokens with a topic's bag of words. -/
def overlapScore (qTokens : List String) (t : Topic) : Nat :=
  tokenOverlap qTokens (tokenize (topicBag t))

/-- The fuzzy-overlap accumulator loop of `findTopicForMessage` stage 3:
`if (score > bestScore) { best = topic; bestScore = score; }`. -/
def fuzzyAux (score : Topic → Nat) :
    List Topic → Option Topic × Nat → Option Topic × Nat
  | [], acc => acc
  | t :: rest, (best, bestScore) =>
    if score t > bestScore then fuzzyAux score rest (some t, score t)
    else fuzzyAux score rest (best, bestScore)

/-- `findTopicForMessage(text)` (`app3.js` 387-409): (1) first topic whose
normalized title is contained in the normalized query; (2) else first topic
one of whose normalized keywords/aliases/tags is contained; (3) else the
token-overlap fallback, accepted when the best score is `>= 2`. -/
def findTopicForMessage (topicsIndex : List Topic) (text : String) : Option Topic :=
  let q := normalize text
  match topicsIndex.find? (fun t => containsSubS q (normalize t.title)) with
  | some t => some t
  | none =>
    match topicsIndex.find? (fun t =>
        (((t.keywords ++ t.aliases ++ t.tags).map normalize).any fun k =>
          containsSubS q k)) with
    | some t => some t
    | none =>
      let qTokens := tokenize q
      let r := fuzzyAux (overlapScore qTokens) topicsIndex (none, 0)
      if r.2 ≥ 2 then r.1 else none

/-! ### Intent detection (`detectIntent`, `app3.js` 434-492)

Each regex of the source is transcribed as the list of its alternative
phrases; `X\s*Y` and `X ?Y` are expanded to their zero-space and one-space
variants, `(ing)?` and friends to both variants.  The source regex is quoted
above each list. -/

def phL (l : List String) : List (List Char) := l.map String.data

/-- `\b(kill myself|end my life|suicide|suicid|harm myself|hurt myself|i (do ?n'?t|dont) want to live)\b` -/
def selfHarmAlts : List (List Char) :=
  phL ["kill myself", "end my life", "suicide", "suicid", "harm myself",
       "hurt myself", "i dont want to live", "i do nt want to live"]
  ++ [("i don".data ++ [aposC] ++ "t want to live".data),
      ("i do n".data ++ [aposC] ++ "t want to live".data)]

/-- `\b(severe|heavy bleeding|passing clots|faint(ing)?|collapse|chest pain|can('?t)? breathe|difficulty breathing|shortness of breath|convulsion|seizure)\b` -/
def emergencyPhysAlts : List (List Char) :=
  phL ["severe", "heavy bleeding", "passing clots", "faint", "fainting",
       "collapse", "chest pain", "can breathe", "cant breathe",
       "difficulty breathing", "shortness of breath", "convulsion", "seizure"]
  ++ [("can".data ++ [aposC] ++ "t breathe".data)]

def waveEmoji : Char := Char.ofNat 0x1F44B

/-- `^(hi|hey|hello|hie|heyy|howzit|morning|afternoon|evening)\b|👋` -/
def greetIntentStart : List (List Char) :=
  phL ["hi", "hey", "hello", "hie", "heyy", "howzit", "morning",
       "afternoon", "evening"]

/-- `\b(thanks|thank you|much appreciated|appreciate it|cheers)\b` -/
def gratitudeAlts : List (List Char) :=
  phL ["thanks", "thank you", "much appreciated", "appreciate it", "cheers"]

/-- `\b(bye|goodbye|see you|gtg|talk later|catch you)\b` -/
def goodbyeAlts : List (List Char) :=
  phL ["bye", "goodbye", "see you", "gtg", "talk later", "catch you"]

/-- `\b(what do you mean|not clear|explain|clarify|make it simple|simple terms)\b` -/
def clarifyAlts : List (List Char) :=
  phL ["what do you mean", "not clear", "explain", "clarify",
       "make it simple", "simple terms"]

/-- `\b(tell me more|more detail|elaborate|expand|give me more)\b` -/
def followupAlts : List (List Char) :=
  phL ["tell me more", "more detail", "elaborate", "expand", "give me more"]

/-- `\b(clinic|hospital|midwife|sister|nurse|doctor|ob[-\s]?gyn|nearest|appointment|book|hotline|helpline|call|number|where can i go)\b` -/
def careNavAlts : List (List Char) :=
  phL ["clinic", "hospital", "midwife", "sister", "nurse", "doctor",
       "obgyn", "ob-gyn", "ob gyn", "nearest", "appointment", "book",
       "hotline", "helpline", "call", "number", "where can i go"]

/-- `\b(ideas?|tips?|suggestions?|how can i relax|help me relax|simple things to try)\b` -/
def ideasAlts : List (List Char) :=
  phL ["idea", "ideas", "tip", "tips", "suggestion", "suggestions",
       "how can i relax", "help me relax", "simple things to try"]

/-- `(\?|^how\b|^what\b|^when\b|^why\b|^which\b|^where\b|^can\b|^should\b|^is it\b)` -/
def questionRx (t : List Char) : Bool :=
  t.contains '?' ||
    anyWbStart (phL ["how", "what", "when", "why", "which", "where", "can",
      "should", "is it"]) t

/-- `\b(who|unicef|department of health|do[ht]\b|guideline|source|evidence|research|nice|bmj)\b` -/
def wantsSourcesAlts : List (List Char) :=
  phL ["who", "unicef", "department of health", "doh", "dot", "guideline",
       "source", "evidence", "research", "nice", "bmj"]

/-- `\b(breast\s*feed(ing)?|breastfeed(ing)?|lactation|latching?|milk\s*supply|colostrum|mastitis|engorgement|wean(ing)?|exclusive\b)\b` -/
def breastfeedingAlts : List (List Char) :=
  phL ["breastfeed", "breastfeeding", "breast feed", "breast feeding",
       "lactation", "latchin", "latching", "milksupply", "milk supply",
       "colostrum", "mastitis", "engorgement", "wean", "weaning", "exclusive"]

/-- The separators admitted by `skin(?:\s*-\s*| )to(?:\s*-\s*| )skin`
(with `\s*` modelled as at most one space). -/
def skinSeps : List String := ["-", " -", "- ", " - ", " "]

def skinToSkinAlts : List (List Char) :=
  (skinSeps.map fun s1 =>
    skinSeps.map fun s2 => ("skin" ++ s1 ++ "to" ++ s2 ++ "skin").data).flatten

/-- `\b(newborn|baby (sleep|feeding)|colic|burp(ing)?|nappy|diaper|jaundice|umbilical|cord care|skin(?:\s*-\s*| )to(?:\s*-\s*| )skin)\b` -/
def newbornAlts : List (List Char) :=
  phL ["newborn", "baby sleep", "baby feeding", "colic", "burp", "burping",
       "nappy", "diaper", "jaundice", "umbilical", "cord care"]
  ++ skinToSkinAlts

/-- `\b(post(?:partum|natal)|perinatal)\b.*\b(depression|anxiety|pnd)\b|\b(baby\s*blues)\b` -/
def psychRx (t : List Char) : Bool :=
  wbSeq (phL ["postpartum", "postnatal", "perinatal"])
        (phL ["depression", "anxiety", "pnd"]) t
  || anyWb (phL ["babyblues", "baby blues"]) t

/-- `\b(trimester|ultrasound|scan|screening|kick count|reduced movements|spotting|cramp|contractions?|waters? (broke|breaking)|swelling|pre[-\s]?eclampsia|gestational|gdm)\b` -/
def obstetricAlts : List (List Char) :=
  phL ["trimester", "ultrasound", "scan", "screening", "kick count",
       "reduced movements", "spotting", "cramp", "contraction",
       "contractions", "water broke", "waters broke", "water breaking",
       "waters breaking", "swelling", "preeclampsia", "pre-eclampsia",
       "pre eclampsia", "gestational", "gdm"]

/-- `\b(paracetamol|acetaminophen|ibuprofen|antibiotic|iron|folate|folic acid|prenatal|dose|dosage|mg|medication|medicine|safe to take)\b` -/
def medsAlts : List (List Char) :=
  phL ["paracetamol", "acetaminophen", "ibuprofen", "antibiotic", "iron",
       "folate", "folic acid", "prenatal", "dose", "dosage", "mg",
       "medication", "medicine", "safe to take"]

/-- The variants of `birth\s*-?\s*control` (`\s*` as at most one space,
multi-space variants omitted). -/
def birthControlAlts : List (List Char) :=
  phL ["birthcontrol", "birth control", "birth-control", "birth -control",
       "birth- control", "birth - control"]

/-- `\b(birth\s*-?\s*control|contracept|family planning|contraceptive|postpartum\s+contracept)\b` -/
def contraceptionAlts : List (List Char) :=
  birthControlAlts
  ++ phL ["contracept", "family planning", "contraceptive",
          "postpartum contracept"]

/-- `\b(labou?r|contractions?|tim(ing|e) contractions?|waters? (broke|breaking)|mucus plug|bloody show|birth plan|delivery|active labour|latent labour)\b` -/
def labourAlts : List (List Char) :=
  phL ["labour", "labor", "contraction", "contractions",
       "timing contraction", "timing contractions", "time contraction",
       "time contractions", "water broke", "waters broke", "water breaking",
       "waters breaking", "mucus plug", "bloody show", "birth plan",
       "delivery", "active labour", "latent labour"]

/-- `\b(post(?:partum|natal)|after birth|lochia|perineal|stitches|c-?section recovery|bleeding after birth|postpartum check|afterpains)\b` -/
def postpartumAlts : List (List Char) :=
  phL ["postpartum", "postnatal", "after birth", "lochia", "perineal",
       "stitches", "csection recovery", "c-section recovery",
       "bleeding after birth", "postpartum check", "afterpains"]

/-- `\b(nutrition|diet|foods?|what (to|can i) eat|eat(ing)? well|supplements?|folate|folic acid|iron|calcium|iodine|vitamin\s*(d|b12)|caffeine|alcohol)\b` -/
def nutritionAlts : List (List Char) :=
  phL ["nutrition", "diet", "food", "foods", "what to eat", "what can i eat",
       "eat well", "eating well", "supplement", "supplements", "folate",
       "folic acid", "iron", "calcium", "iodine", "vitamind", "vitamin d",
       "vitaminb12", "vitamin b12", "caffeine", "alcohol"]

/-- `\b(warning signs?|red flags?|danger signs?|severe headache|blurred vision|fits|fever|reduced (baby )?movements?|heavy bleeding|severe pain|swelling of (face|hands))\b` -/
def warningSignsAlts : List (List Char) :=
  phL ["warning sign", "warning signs", "red flag", "red flags",
       "danger sign", "danger signs", "severe headache", "blurred vision",
       "fits", "fever", "reduced movement", "reduced movements",
       "reduced baby movement", "reduced baby movements", "heavy bleeding",
       "severe pain", "swelling of face", "swelling of hands"]

/-- `\b(antenatal|anc|prenatal|booking|first booking|visit schedule|how often|how many visits|when should i go|clinic card|maternity record)\b` -/
def clinicVisitsAlts : List (List Char) :=
  phL ["antenatal", "anc", "prenatal", "booking", "first booking",
       "visit schedule", "how often", "how many visits", "when should i go",
       "clinic card", "maternity record"]

/-- `\b(vaccin(e|ation)|immuni[sz]e|immuni[sz]ation|shots?|bcg|opv|ipv|hep(?:atitis)? ?b|dtap|mmr|6 ?weeks|10 ?weeks|14 ?weeks|measles)\b` -/
def immunizationAlts : List (List Char) :=
  phL ["vaccine", "vaccination", "immunise", "immunize", "immunisation",
       "immunization", "shot", "shots", "bcg", "opv", "ipv", "hepb", "hep b",
       "hepatitisb", "hepatitis b", "dtap", "mmr", "6weeks", "6 weeks",
       "10weeks", "10 weeks", "14weeks", "14 weeks", "measles"]

/-- `\b(fever|bleeding|pain|swelling|medicine|medication|dose|trimester|ultrasound|screening|mastitis|breast(?:\s*|-)feeding|latch|colic|contractions?|labou?r|dehydration|hypertension|pre[-\s]?eclampsia|gestational|post(?:partum|natal)|perinatal|depression|anxiety|baby blues|pnd|contracept|family planning|birth\s*-?\s*control|jaundice|umbilical)\b` -/
def medicalishAlts : List (List Char) :=
  phL ["fever", "bleeding", "pain", "swelling", "medicine", "medication",
       "dose", "trimester", "ultrasound", "screening", "mastitis",
       "breastfeeding", "breast feeding", "breast-feeding", "latch", "colic",
       "contraction", "contractions", "labour", "labor", "dehydration",
       "hypertension", "preeclampsia", "pre-eclampsia", "pre eclampsia",
       "gestational", "postpartum", "postnatal", "perinatal", "depression",
       "anxiety", "baby blues", "pnd", "contracept", "family planning"]
  ++ birthControlAlts
  ++ phL ["jaundice", "umbilical"]

/-- `\b(sad|down|overwhelmed|anxious|worried|confused|stressed|tired|lonely|drained|scared|fearful)\b` -/
def lowMoodAlts : List (List Char) :=
  phL ["sad", "down", "overwhelmed", "anxious", "worried", "confused",
       "stressed", "tired", "lonely", "drained", "scared", "fearful"]

/-- The emoji characters of the smalltalk pattern
`(^hmm$|lol|haha|hehe|😊|☺️|😅|😂|🤣|😉|🙂|❤️)` (base code points). -/
def smalltalkEmojis : List Char :=
  [Char.ofNat 0x1F60A, Char.ofNat 0x263A, Char.ofNat 0x1F605,
   Char.ofNat 0x1F602, Char.ofNat 0x1F923, Char.ofNat 0x1F609,
   Char.ofNat 0x1F642, Char.ofNat 0x2764]

/-- `(^hmm$|lol|haha|hehe|...emoji...)` — note: not word-bounded. -/
def smalltalkRx (t : List Char) : Bool :=
  t == "hmm".data || containsL t "lol".data || containsL t "haha".data ||
    containsL t "hehe".data || t.any (fun c => smalltalkEmojis.contains c)

/-- `detectIntent(text)` (`app3.js` 434-492).  The self-harm / acute
physical-emergency lexicon short-circuits to `"emergency"` before every
other test; then conversational-management patterns; then the topic
detectors gated by the info-like predicate; then comfort / smalltalk /
feelings. -/
def detectIntent (text : String) : String :=
  let t := trimL (lowerL text.data)
  if anyWb selfHarmAlts t || anyWb emergencyPhysAlts t then "emergency"
  else if anyWbStart greetIntentStart t || t.contains waveEmoji then "greeting"
  else if anyWb gratitudeAlts t then "gratitude"
  else if anyWb goodbyeAlts t then "goodbye"
  else if anyWb clarifyAlts t then "clarify"
  else if anyWb followupAlts t then "followup"
  else if anyWb careNavAlts t then "care_nav"
  else if anyWb ideasAlts t then "ideas"
  else
    let infoLike := questionRx t || anyWb wantsSourcesAlts t || anyWb medicalishAlts t
    if infoLike then
      if anyWb breastfeedingAlts t then "info:breastfeeding"
      else if anyWb newbornAlts t then "info:newborn"
      else if psychRx t then "info:psych"
      else if anyWb obstetricAlts t then "info:obstetric"
      else if anyWb medsAlts t then "info:meds"
      else if anyWb contraceptionAlts t then "info:contraception"
      else if anyWb labourAlts t then "info:labour"
      else if anyWb postpartumAlts t then "info:postpartum"
      else if anyWb nutritionAlts t then "info:nutrition"
      else if anyWb warningSignsAlts t then "info:warning_signs"
      else if anyWb clinicVisitsAlts t then "info:clinic_visits"
      else if anyWb immunizationAlts t then "info:immunization"
      else "info"
    else if anyWb lowMoodAlts t then "comfort"
    else if smalltalkRx t then "smalltalk"
    else "feelings"

/-! ### Router helpers and session state (`app3.js` 723-840) -/

/-- The word list of `isGreeting`:
`^(hi|hey|hello|hie|heyy|hiya|howzit|yo|sup|morning|afternoon|evening)[!.,\s]?$`. -/
def greetWords : List String :=
  ["hi", "hey", "hello", "hie", "heyy", "hiya", "howzit", "yo", "sup",
   "morning", "afternoon", "evening"]

/-- The emoji alternatives of `isGreeting`: `[👋🙂😊😉]`. -/
def greetEmojis : List Char :=
  [Char.ofNat 0x1F44B, Char.ofNat 0x1F642, Char.ofNat 0x1F60A,
   Char.ofNat 0x1F609]

/-- `isGreeting(text)` (`app3.js` 728-731): the whole trimmed lowercased
text is a greeting word optionally followed by one `[!.,\s]` character, or
the text contains a greeting emoji. -/
def isGreeting (text : String) : Bool :=
  let t := lowerL (trimL text.data)
  ((greetWords.map String.data).any fun w =>
      t == w || ("!.,".data ++ [' ', '\t', '\n', '\r']).any fun c => t == w ++ [c])
    || t.any fun c => greetEmojis.contains c

/-- The `how\s*(are|r)\s*(you|u)` variants of `isSocialCheckIn`
(`\s*` as at most one space). -/
def socialHowAlts : List (List Char) :=
  ((["are", "r"].map fun m =>
    (["you", "u"].map fun y =>
      (["", " "].map fun s1 =>
        ["", " "].map fun s2 =>
          ("how" ++ s1 ++ m ++ s2 ++ y).data).flatten).flatten).flatten)

/-- `isSocialCheckIn(text)` (`app3.js` 732-735):
`\b(how\s*(are|r)\s*(you|u)\??|how[’']?s it going|how is it going|how are things|you ok(ay)?|you alright)\b`
(the optional trailing `?` of the first alternative is redundant under the
trailing `\b` and is omitted). -/
def isSocialCheckIn (text : String) : Bool :=
  let t := lowerL (trimL text.data)
  anyWb (socialHowAlts
    ++ phL ["hows it going", "how is it going", "how are things",
            "you ok", "you okay", "you alright"]
    ++ [("how".data ++ [aposC] ++ "s it going".data),
        ("how".data ++ [Char.ofNat 0x2019] ++ "s it going".data)]) t

/-- `\b(yes|sure|ok|okay|please|go ahead|yep|yeah)\b` (consent affirmative). -/
def yesLexicon (text : String) : Bool :=
  anyWb (phL ["yes", "sure", "ok", "okay", "please", "go ahead", "yep",
    "yeah"]) (lowerL text.data)

/-- `\b(no|nope|nah|not now|later)\b` (consent negative). -/
def noLexicon (text : String) : Bool :=
  anyWb (phL ["no", "nope", "nah", "not now", "later"]) (lowerL text.data)

/-- `intent === "info" || intent.startsWith("info:")`. -/
def isInfoIntent (intent : String) : Bool :=
  intent == "info" || isPrefixL "info:".data intent.data

/-- The top-level `intentToTopic` map (`app3.js` 739-752, 12 entries). -/
def intentToTopic (intent : String) : Option String :=
  if intent == "info:breastfeeding" then some "content/breastfeeding.json"
  else if intent == "info:newborn" then some "content/newborn_basics.json"
  else if intent == "info:psych" then some "content/mental_health.json"
  else if intent == "info:obstetric" then some "content/antenatal_care_basics.json"
  else if intent == "info:meds" then some "content/medicines_in_pregnancy.json"
  else if intent == "info:contraception" then some "content/contraception_postpartum.json"
  else if intent == "info:labour" then some "content/labour_and_birth.json"
  else if intent == "info:postpartum" then some "content/postpartum_care_basics.json"
  else if intent == "info:nutrition" then some "content/pregnancy_nutrition.json"
  else if intent == "info:warning_signs" then some "content/warning_signs.json"
  else if intent == "info:clinic_visits" then some "content/antenatal_visit_schedule.json"
  else if intent == "info:immunization" then some "content/infant_immunization.json"
  else none

/-- The local `intentToTopic` map inside `handleInfoLike`
(`app3.js` 418-425, only 6 entries). -/
def intentToTopicLocal (intent : String) : Option String :=
  if intent == "info:breastfeeding" then some "content/breastfeeding.json"
  else if intent == "info:newborn" then some "content/newborn_basics.json"
  else if intent == "info:psych" then some "content/mental_health.json"
  else if intent == "info:obstetric" then some "content/antenatal_care_basics.json"
  else if intent == "info:meds" then some "content/medicines_in_pregnancy.json"
  else if intent == "info:contraception" then some "content/contraception_postpartum.json"
  else none

/-- The outbound action decided by one turn of the router.  `topicAnswer`
and `chat` involve a model completion, `webSearch` a network call; `crisis`
and the other fixed replies are emitted without either. -/
inductive RouterAction where
  | socialAck
  | greetRecent
  | greetFresh
  | crisis
  | gratitudeAck
  | goodbyeAck
  | clarifyAck
  | followupAck
  | careNavAck
  | smalltalkAck
  | topicAnswer (path : String)
  | webSearch (query : String)
  | consentDenied
  | consentAsk
  | chat
deriving DecidableEq, Repr

/-- Does the action require a model completion or a network call?
(`topicAnswer` runs the paraphrase completion, `webSearch` calls the
gateway, `chat` runs the friend-mode completion; every other action is a
fixed scripted reply.) -/
def RouterAction.usesModelOrNetwork : RouterAction → Bool
  | .topicAnswer _ => true
  | .webSearch _ => true
  | .chat => true
  | _ => false

/-- `handleInfoLike(userText, scopedIntent)` (`app3.js` 412-430): local
topic first, then the local 6-entry intent map, else web search. -/
def handleInfoLike (topicsIndex : List Topic) (userText : String)
    (scopedIntent : String) : RouterAction :=
  match findTopicForMessage topicsIndex userText with
  | some topic => .topicAnswer topic.path
  | none =>
    match intentToTopicLocal scopedIntent with
    | some path => .topicAnswer path
    | none => .webSearch userText

/-- Session-scoped router state (`app3.js` 60, 724-726): the rolling
history length (capped at 6 by `pushHistory`), the one-time search opt-in
flag, the pending-consent slot, and the last-greet turn marker. -/
structure Session where
  historyLen : Nat
  searchOptIn : Bool
  awaitingSearchConsent : Option String
  lastGreetTurn : Int
deriving DecidableEq, Repr

/-- Initial session state (`searchOptIn=false`, no pending consent,
`lastGreetTurn = -999`; one greeting message is pushed on load). -/
def initialSession : Session :=
  { historyLen := 1, searchOptIn := false, awaitingSearchConsent := none,
    lastGreetTurn := -999 }

/-- `pushHistory` keeps at most the last 6 messages. -/
def pushHist (n : Nat) : Nat := min (n + 1) 6

/-- The fixed-reply cascade of the classification tail (`app3.js` 798-809):
emergency first, then the quick conversational intents, in source order. -/
def quickReply (intent : String) : Option RouterAction :=
  if intent == "emergency" then some .crisis
  else if intent == "gratitude" then some .gratitudeAck
  else if intent == "goodbye" then some .goodbyeAck
  else if intent == "clarify" then some .clarifyAck
  else if intent == "followup" then some .followupAck
  else if intent == "care_nav" then some .careNavAck
  else if intent == "smalltalk" then some .smalltalkAck
  else none

/-- The classification tail of the submit handler (`app3.js` 794-839),
reached when neither the social-check-in nor the greeting pattern matched
and the consent block did not handle the message.  (`asksForIdeas` /
`friendlyIdeas` of step 5 are not defined anywhere in `app3.js`, so the
`typeof === "function"` guard makes that step dead code; it is omitted.) -/
def classifyTail (topicsIndex : List Topic) (s : Session) (text : String) :
    Session × RouterAction :=
  let intent := detectIntent text
  match quickReply intent with
  | some a => (s, a)
  | none =>
    match findTopicForMessage topicsIndex text with
    | some topic => (s, .topicAnswer topic.path)
    | none =>
      if isInfoIntent intent then
        match intentToTopic intent with
        | some path => (s, .topicAnswer path)
        | none =>
          if s.searchOptIn then (s, handleInfoLike topicsIndex text intent)
          else ({ s with awaitingSearchConsent := some text }, .consentAsk)
      else (s, .chat)

/-- One turn of the form submit handler (`app3.js` 754-840) on a non-empty
trimmed message: (0) social check-in, (1) greeting, (2) consent resolution
when a consent request is pending, (3-7) classification tail.  The returned
session reflects the state mutations of the taken branch (the history push
for the user message, plus the handler's own assignments); each bot reply
also pushes history, which only influences the greeting variant and is
modelled exactly there. -/
def handleSubmit (topicsIndex : List Topic) (s : Session) (text : String) :
    Session × RouterAction :=
  let lenAfterUser := pushHist s.historyLen
  let s0 := { s with historyLen := lenAfterUser }
  if isSocialCheckIn text then
    ({ s0 with historyLen := pushHist lenAfterUser }, .socialAck)
  else if isGreeting text then
    let recent := (lenAfterUser : Int) - s.lastGreetTurn ≤ 2
    let lenAfterReply := pushHist lenAfterUser
    ({ s0 with historyLen := lenAfterReply, lastGreetTurn := lenAfterReply },
     if recent then .greetRecent else .greetFresh)
  else
    match s.awaitingSearchConsent with
    | some original =>
      if yesLexicon text then
        let origIntent := detectIntent original
        ({ s0 with awaitingSearchConsent := none, searchOptIn := true,
                   historyLen := pushHist lenAfterUser },
         handleInfoLike topicsIndex original origIntent)
      else if noLexicon text then
        ({ s0 with awaitingSearchConsent := none,
                   historyLen := pushHist lenAfterUser }, .consentDenied)
      else
        classifyTail topicsIndex { s0 with awaitingSearchConsent := none } text
    | none => classifyTail topicsIndex s0 text

/-! ### Retrieval gateway (`server.js` part of `app3.js`, lines 841-1079) -/

/-- Locate the first `"://"` in a URL and return what follows. -/
def afterScheme : List Char → Option (List Char)
  | ':' :: '/' :: '/' :: rest => some rest
  | _ :: cs => afterScheme cs
  | [] => none

/-- `new URL(url).hostname` (simplified WHATWG model: the characters after
the first `"://"` up to the first `/`, `:`, `?` or `#`; empty host fails). -/
def parseHostname (url : String) : Option String :=
  match afterScheme url.data with
  | none => none
  | some rest =>
    let host := rest.takeWhile fun c => !([ '/', ':', '?', '#'].contains c)
    if host.isEmpty then none else some ⟨host⟩

/-- `new URL(url)`: hostname and pathname (pathname is `"/"` when the URL
has no path; a `:port` segment is skipped). -/
def parseUrlParts (url : String) : Option (String × String) :=
  match afterScheme url.data with
  | none => none
  | some rest =>
    let host := rest.takeWhile fun c => !([ '/', ':', '?', '#'].contains c)
    if host.isEmpty then none
    else
      let after := rest.drop host.length
      let after2 :=
        match after with
        | ':' :: more => more.dropWhile fun c => c ≠ '/'
        | _ => after
      match after2 with
      | '/' :: _ => some (⟨host⟩, ⟨after2.takeWhile fun c => !([ '?', '#'].contains c)⟩)
      | _ => some (⟨host⟩, "/")

/-- `hostIsAllowed(url)` (`app3.js` 889-894): the lowercased parsed hostname
equals an allow-list entry or ends with `"." + entry`; URL parse failure
yields `false`.  (`ALLOW_LIST` entries are lowercased at load time.) -/
def hostIsAllowed (allowList : List String) (url : String) : Bool :=
  match parseHostname url with
  | none => false
  | some h =>
    let hl := toLowerS h
    allowList.any fun d => hl == d || endsWithS hl ("." ++ d)

/-- One raw result from the upstream search API (`resp.data.items`). -/
structure RawItem where
  title : String
  link : String
  snippet : String
deriving DecidableEq, Repr

/-- One item returned by `/api/search`. -/
structure SearchItem where
  name : String
  url : String
  snippet : String
deriving DecidableEq, Repr

/-- The application-layer filtering and mapping of `/api/search`
(`app3.js` 988-991): raw upstream items are filtered by `hostIsAllowed`
before being returned. -/
def apiSearchItems (allowList : List String) (raw : List RawItem) : List SearchItem :=
  (raw.filter fun it => hostIsAllowed allowList it.link).map fun it =>
    { name := it.title, url := it.link, snippet := it.snippet }

/-- Responses of `/api/fetch` relevant to the admission/allow-list logic.
`upstreamOrBody` abstracts every response produced after the allow-list
check succeeded (upstream errors, content-type rejections, extraction
results); `serverError` stands for the `catch` branch. -/
inductive FetchResp where
  | busy
  | missingUrl
  | domainNotAllowed
  | upstreamOrBody (code : Nat)
  | serverError
deriving DecidableEq, Repr

/-- `FETCH_CONCURRENCY` defaults to 2 (`app3.js` 877). -/
def MAX_CONCURRENT_FETCHES (envVal : Option Nat) : Nat := envVal.getD 2

/-- The `/api/fetch` handler viewed as a state transformer on the global
`activeFetches` counter (`app3.js` 1001-1075).  A request at the ceiling is
answered `busy` (HTTP 429) with the counter untouched and nothing queued
(the state has no queue component); an admitted request increments the
counter, runs its body — `body` abstracts everything inside the `try`
after the allow-list check, `Except.error` standing for a thrown
exception — and the `finally` decrements exactly once, whatever the
outcome. -/
def apiFetchStep (maxConc : Nat) (allowList : List String) (active : Nat)
    (url? : Option String) (body : Except Unit FetchResp) : FetchResp × Nat :=
  if active ≥ maxConc then (.busy, active)
  else
    let a1 := active + 1
    let resp : FetchResp :=
      match url? with
      | none => .missingUrl
      | some u =>
        if !hostIsAllowed allowList u then .domainNotAllowed
        else
          match body with
          | .ok r => r
          | .error _ => .serverError
    (resp, a1 - 1)

/-- Events on the shared `activeFetches` counter: a request arriving at the
admission check, and an admitted request finishing (its `finally`). -/
inductive FetchEv where
  | arrive
  | depart
deriving DecidableEq, Repr

def traceStep (maxConc n : Nat) : FetchEv → Nat
  | .arrive => if n ≥ maxConc then n else n + 1
  | .depart => n - 1

/-- The `activeFetches` counter after a sequence of arrival/departure
events. -/
def runTrace (maxConc : Nat) : Nat → List FetchEv → Nat
  | n, [] => n
  | n, e :: es => runTrace maxConc (traceStep maxConc n e) es

/-! ### Article extraction (`/api/fetch` body, `app3.js` 1042-1065, and
`fallbackExtractText`, 931-953) -/

/-- The DOM as seen by `fallbackExtractText`: for each probed selector
(`article`, `main`, `[role='main']`, `#content`, `.content`, `.article`,
`.main`, `section`), the `textContent` of its matching nodes, in order;
plus the body text. -/
structure DomDoc where
  groups : List (List String)
  bodyText : String
deriving DecidableEq, Repr

/-- The inner `forEach` of `fallbackExtractText`: track the best candidate
by the length of its whitespace-collapsed trimmed text (the stored `best`
is the trimmed, not collapsed, text). -/
def fallbackScanGroup (acc : String × Nat) (g : List String) : String × Nat :=
  g.foldl
    (fun bl txt =>
      let t := trimS txt
      let len := (collapseWsL t.data).length
      if len > bl.2 then (t, len) else bl)
    acc

/-- The selector loop with its early exit: `if (bestLen > 500) break`. -/
def fallbackLoop : List (List String) → String × Nat → String × Nat
  | [], acc => acc
  | g :: gs, acc =>
    let acc2 := fallbackScanGroup acc g
    if acc2.2 > 500 then acc2 else fallbackLoop gs acc2

/-- `fallbackExtractText(document)` (`app3.js` 931-953): probe the selector
groups, stop once the best collapsed length exceeds 500; if no candidate
had any text, fall back to the whitespace-collapsed trimmed body text. -/
def fallbackExtractText (doc : DomDoc) : String :=
  let r := fallbackLoop doc.groups ("", 0)
  if r.2 == 0 then ⟨collapseWsL (trimL doc.bodyText.data)⟩ else r.1

/-- `fullText` after the primary/fallback choice (`app3.js` 1047-1050):
the trimmed Readability text if it has at least 400 characters, else the
trimmed fallback extraction. -/
def chosenFullText (primary : Option String) (doc : DomDoc) : String :=
  let f0 := trimS (primary.getD "")
  if f0.data.isEmpty || f0.data.length < 400 then trimS (fallbackExtractText doc)
  else f0

/-- The article payload of a successful `/api/fetch` (text plus
`meta.charCount` / `meta.truncated`). -/
structure ArticleOut where
  text : String
  charCount : Nat
  truncated : Bool
deriving DecidableEq, Repr

/-- `Math.min(Number(req.query.maxChars) || 50000, 200000)` — absent,
non-numeric or zero `maxChars` falls back to 50000 (the model covers
non-negative integer parameters). -/
def effectiveMaxChars (p : Option Nat) : Nat :=
  min (match p with | none => 50000 | some 0 => 50000 | some n => n) 200000

/-- The extraction tail of `/api/fetch` (`app3.js` 1047-1065): HTTP 422
when fewer than 200 characters could be extracted, else the text clipped
to `maxChars` with `charCount`/`truncated` metadata. -/
def extractRoute (primary : Option String) (doc : DomDoc)
    (maxCharsParam : Option Nat) : Except Nat ArticleOut :=
  let fullText := chosenFullText primary doc
  if fullText.data.isEmpty || fullText.data.length < 200 then .error 422
  else
    let mc := effectiveMaxChars maxCharsParam
    .ok { text := ⟨fullText.data.take mc⟩,
          charCount := fullText.data.length,
          truncated := fullText.data.length > mc }

/-! ### Extractive summary pipeline (`fetchAndSummarize`, `app3.js` 616-721) -/

/-- `s.split(sep)` at every occurrence of a single character. -/
def splitCharL (sep : Char) : List Char → List (List Char)
  | [] => [[]]
  | c :: rest =>
    if c = sep then [] :: splitCharL sep rest
    else
      match splitCharL sep rest with
      | [] => [[c]]
      | w :: ws => (c :: w) :: ws

/-- `.replace(/^[-*•]\s*/, "")`: drop one leading bullet-marker character
and the whitespace run after it. -/
def stripBulletMarker : List Char → List Char
  | [] => []
  | c :: rest =>
    if c = '-' || c = '*' || c = '•' then rest.dropWhile isWsChar
    else c :: rest

/-- The duplicate-detection key: `b.toLowerCase().replace(/\s+/g, " ").trim()`. -/
def bulletKey (s : String) : String :=
  ⟨trimL (collapseWsL (lowerL s.data))⟩

/-- Keep the first bullet of each key (`seen` set of `fetchAndSummarize`). -/
def dedupByKeyAux (seen : List String) : List String → List String
  | [] => []
  | b :: rest =>
    if seen.contains (bulletKey b) then dedupByKeyAux seen rest
    else b :: dedupByKeyAux (bulletKey b :: seen) rest

def dedupByKey (l : List String) : List String := dedupByKeyAux [] l

/-- The bullet post-processing of `fetchAndSummarize` (`app3.js` 675-688):
split the model draft on newlines (splitting on single newlines is
equivalent to the source's `/\n+/` because empty lines are trimmed away by
the following filter), strip bullet markers and trim, drop empties, keep
only verbatim substrings of the excerpt, deduplicate by key keeping the
first occurrence, cap at 5. -/
def extractBullets (excerpt draft : String) : List String :=
  let cleaned :=
    ((splitCharL '\n' draft.data).map fun l =>
      (⟨trimL (stripBulletMarker l)⟩ : String)).filter fun s => s ≠ ""
  let verified := cleaned.filter fun s => containsSubS excerpt s
  (dedupByKey verified).take 5

/-- Outcome of the summarization phase: bullets from the first window,
bullets from the retry window, or the "no quotable content" reply. -/
inductive SummarizeOutcome where
  | firstPass (bullets : List String)
  | retryPass (bullets : List String)
  | noQuote
deriving DecidableEq, Repr

/-- The two-window protocol of `fetchAndSummarize` (`app3.js` 656-711):
first pass on `rawText.slice(0, 8000)` with the model draft `draft1`; if no
bullet survives, retry on `rawText.slice(6000, 14000)` (only when that
window is longer than 500 characters) with `draft2`; else the
no-quotable-content reply. -/
def summarizePhase (rawText draft1 draft2 : String) : SummarizeOutcome :=
  let excerpt : String := ⟨rawText.data.take 8000⟩
  let bullets := extractBullets excerpt draft1
  if bullets.isEmpty then
    let alt : String := ⟨(rawText.data.drop 6000).take 8000⟩
    if alt.data.length > 500 then
      let b2 := extractBullets alt draft2
      if b2.isEmpty then .noQuote else .retryPass b2
    else .noQuote
  else .firstPass bullets

/-! ### Candidate-advance control flow of `fetchAndSummarize`
(`app3.js` 616-721) -/

/-- Per-candidate fetch outcome as seen by `fetchAndSummarize`: a non-OK
HTTP status, an OK response whose JSON has no `text`, or a usable page. -/
inductive FetchOut where
  | httpFail (status : Nat)
  | okNoText
  | okText
deriving DecidableEq, Repr

/-- The user-visible messages emitted by `fetchAndSummarize`.
`summarized i` abstracts the bullet/no-quote reply produced for candidate
`i`'s page. -/
inductive BotMsg where
  | openingSource
  | pdfMsg
  | tooLargeMsg
  | busyTryNext
  | httpFailTryNext (status : Nat)
  | didNotLoadCleanly
  | noOtherSources
  | summarized (idx : Nat)
deriving DecidableEq, Repr

/-- The status-specific failure message (`app3.js` 632-635).  Each of these
messages except the 415/413 ones ends in "Trying the next one…". -/
def failMsgFor (status : Nat) : BotMsg :=
  if status == 415 then .pdfMsg
  else if status == 413 then .tooLargeMsg
  else if status == 429 then .busyTryNext
  else .httpFailTryNext status

/-- `fetchAndSummarize(userText, url, index)` (`app3.js` 616-721), modelled
as the list of messages it emits.  `fetchingNow` is the module-level
re-entrancy flag: the function returns immediately when it is set, and the
recursive advance call `return fetchAndSummarize(userText, next.url,
index+1)` executes while the flag is still `true` (the `finally` only
clears it 300 ms later), which is modelled by passing `true` to the
recursive call.  `out i` is the fetch outcome for candidate `i`; `fuel`
bounds the recursion (the source recursion strictly increases `index`, so
`items.length` fuel suffices). -/
def fetchAndSummarize (items : List String) (out : Nat → FetchOut)
    (fetchingNow : Bool) (index : Nat) : Nat → List BotMsg
  | 0 => []
  | fuel + 1 =>
    if fetchingNow then []
    else
      .openingSource ::
        match out index with
        | .httpFail status =>
          failMsgFor status ::
            (if index + 1 < items.length then
              fetchAndSummarize items out true (index + 1) fuel
            else [.noOtherSources])
        | .okNoText =>
          .didNotLoadCleanly ::
            (if index + 1 < items.length then
              fetchAndSummarize items out true (index + 1) fuel
            else [])
        | .okText => [.summarized index]

/-! ### Result re-ranking (`scoreResult`, `app3.js` 495-563, and the sort
in `startWebSearch`, 598-604) -/

/-- `scoreResult`'s breastfeeding regex (line 538) differs from
`detectIntent`'s in one alternative: `latch(?:ing)?` instead of
`latching?`. -/
def scoreBreastfeedingAlts : List (List Char) :=
  phL ["breastfeed", "breastfeeding", "breast feed", "breast feeding",
       "lactation", "latch", "latching", "milksupply", "milk supply",
       "colostrum", "mastitis", "engorgement", "wean", "weaning", "exclusive"]

/-- Host boosts: `(^|\.)who\.int$`, `(^|\.)www\.who\.int$`,
`(^|\.)health\.gov\.za$`, `(^|\.)nice\.org\.uk$`, `(^|\.)bmj\.com$`,
`(^|\.)unicef\.org$`. -/
def hostBoostList : List String :=
  ["who.int", "www.who.int", "health.gov.za", "nice.org.uk", "bmj.com",
   "unicef.org"]

/-- Host penalties: `help.unicef.org`, `apps.who.int`, `platform.who.int`,
`iarc.who.int` (same `(^|\.)d$` shape). -/
def hostPenaltyList : List String :=
  ["help.unicef.org", "apps.who.int", "platform.who.int", "iarc.who.int"]

/-- `(^|\.)d$` on a hostname. -/
def hostSuffixMatch (host d : String) : Bool :=
  host == d || endsWithS host ("." ++ d)

/-- `u.pathname.split("/").filter(Boolean).length`. -/
def pathDepth (path : String) : Nat :=
  ((splitCharL '/' path.data).filter fun l => !l.isEmpty).length

/-- `\/publications?(-|\/|$)`. -/
def pathPublications (p : String) : Bool :=
  containsSubS p "/publication-" || containsSubS p "/publication/" ||
    containsSubS p "/publications-" || containsSubS p "/publications/" ||
    endsWithS p "/publication" || endsWithS p "/publications"

/-- `\/guidance|\/guidelines?` (the optional `s` is irrelevant for a
containment test). -/
def pathGuidance (p : String) : Bool :=
  containsSubS p "/guidance" || containsSubS p "/guideline"

/-- `\/clinical|\/patients?\/|\/conditions?\/|\/topics?\/|\/fact-?sheet`. -/
def pathClinical (p : String) : Bool :=
  containsSubS p "/clinical" || containsSubS p "/patient/" ||
    containsSubS p "/patients/" || containsSubS p "/condition/" ||
    containsSubS p "/conditions/" || containsSubS p "/topic/" ||
    containsSubS p "/topics/" || containsSubS p "/fact-sheet" ||
    containsSubS p "/factsheet"

/-- `\/press|\/news|\/stories|\/appeal|\/donate|\/fund|\/campaign`. -/
def pathPress (p : String) : Bool :=
  containsSubS p "/press" || containsSubS p "/news" ||
    containsSubS p "/stories" || containsSubS p "/appeal" ||
    containsSubS p "/donate" || containsSubS p "/fund" ||
    containsSubS p "/campaign"

/-- `who\.int.*\/health-topics\//` on the (lowercased) url string. -/
def whoHealthTopics (url : String) : Bool :=
  containsThenL "who.int".data "/health-topics/".data url.data

/-- The twelve topical category tests of the `rx` table
(`app3.js` 537-550) — textually identical to the `detectIntent` detectors
except for the breastfeeding entry. -/
def categoryRxList : List (List Char → Bool) :=
  [anyWb scoreBreastfeedingAlts, anyWb newbornAlts, psychRx,
   anyWb obstetricAlts, anyWb medsAlts, anyWb contraceptionAlts,
   anyWb labourAlts, anyWb postpartumAlts, anyWb nutritionAlts,
   anyWb warningSignsAlts, anyWb clinicVisitsAlts, anyWb immunizationAlts]

/-- `scoreResult(it)` (`app3.js` 495-563).  `lastQuery` is the value of
`lastSearch.query` at call time — the comparator closure reads the
module-level `lastSearch`, which `startWebSearch` only reassigns *after*
sorting. -/
def scoreResult (lastQuery : String) (it : SearchItem) : Int :=
  let title := toLowerS it.name
  let url := toLowerS it.url
  let q := toLowerS lastQuery
  let urlScore : Int :=
    match parseUrlParts url with
    | none => 0
    | some (host, path) =>
      (if hostBoostList.any (hostSuffixMatch host) then 3 else 0)
      + (if hostPenaltyList.any (hostSuffixMatch host) then -3 else 0)
      + (if pathDepth path ≤ 1 then -1 else 0)
      + (if containsSubS path "/health-topics/" then 4 else 0)
      + (if pathPublications path then 2 else 0)
      + (if pathGuidance path then 3 else 0)
      + (if pathClinical path then 2 else 0)
      + (if pathPress path then -4 else 0)
  let catScore : Int :=
    (categoryRxList.map fun rx =>
      if rx q.data || rx title.data || rx url.data then
        (if whoHealthTopics url then (7 : Int) else 3)
      else 0).sum
  urlScore + catScore
  + (if anyWb (phL ["guideline", "recommendation", "fact sheet", "overview",
        "faq", "qa"]) title.data then 2 else 0)
  + (if anyWb (phL ["press release", "appeal", "donate", "urgent",
        "breaking"]) title.data then -3 else 0)

/-- Stable descending insertion (a new element passes an existing one only
when its score is strictly greater). -/
def insertDesc (score : SearchItem → Int) (x : SearchItem) :
    List SearchItem → List SearchItem
  | [] => [x]
  | y :: ys => if score x > score y then x :: y :: ys else y :: insertDesc score x ys

/-- `items.sort((a, b) => scoreResult(b) - scoreResult(a))`: stable
(ES2019) descending sort by score. -/
def sortByScoreDesc (score : SearchItem → Int) (l : List SearchItem) :
    List SearchItem :=
  l.foldr (insertDesc score) []

/-- The ranking performed by `startWebSearch` (`app3.js` 598-604): the sort
runs *before* `lastSearch = { query: userText, items }`, so the comparator
scores with the previous search's query (`""` on the first search);
`userText` only becomes `lastSearch.query` afterwards. -/
def startWebSearchRanked (prevQuery : String) (items : List SearchItem) :
    List SearchItem :=
  sortByScoreDesc (scoreResult prevQuery) items

/-- Whitespace-run freedom: no two adjacent whitespace characters. -/
def noWsRunB : List Char → Bool
  | c1 :: c2 :: rest => !(isWsChar c1 && isWsChar c2) && noWsRunB (c2 :: rest)
  | _ => true

/-! ## Helper lemmas: characters and whitespace structure -/

theorem char_toNat_ofNat {n : Nat} (h : n.isValidChar) : (Char.ofNat n).toNat = n := by
  unfold Char.ofNat
  simp [h]
  unfold Char.ofNatAux Char.toNat UInt32.toNat
  simp

theorem toLower_toLower (c : Char) : (c.toLower).toLower = c.toLower := by
  by_cases h : c.toNat ≥ 65 ∧ c.toNat ≤ 90
  · have hv : (c.toNat + 32).isValidChar := by
      unfold Nat.isValidChar
      left
      omega
    have h1 : c.toLower = Char.ofNat (c.toNat + 32) := if_pos h
    have h2 : (Char.ofNat (c.toNat + 32)).toNat = c.toNat + 32 := char_toNat_ofNat hv
    have h3 : ¬((Char.ofNat (c.toNat + 32)).toNat ≥ 65 ∧
        (Char.ofNat (c.toNat + 32)).toNat ≤ 90) := by
      rw [h2]
      omega
    rw [h1]
    exact if_neg h3
  · have h1 : c.toLower = c := if_neg h
    rw [h1, h1]

theorem toLower_space : Char.toLower ' ' = ' ' := by decide

theorem mem_dropWhile_subset {p : Char → Bool} {l : List Char} {c : Char}
    (h : c ∈ l.dropWhile p) : c ∈ l := by
  induction l with
  | nil => simp at h
  | cons x xs ih =>
    by_cases hx : p x
    · simp [List.dropWhile, hx] at h
      exact List.mem_cons_of_mem x (ih h)
    · simpa [List.dropWhile, hx] using h

theorem mem_trimL_subset {l : List Char} {c : Char} (h : c ∈ trimL l) : c ∈ l := by
  unfold trimL at h
  rw [List.mem_reverse] at h
  have h2 := mem_dropWhile_subset h
  rw [List.mem_reverse] at h2
  exact mem_dropWhile_subset h2

theorem mem_collapseWsL {l : List Char} {c : Char} (h : c ∈ collapseWsL l) :
    c = ' ' ∨ (c ∈ l ∧ isWsChar c = false) := by
  induction l with
  | nil => simp [collapseWsL] at h
  | cons x xs ih =>
    match xs, h with
    | [], h =>
      by_cases hx : isWsChar x
      · left
        simpa [collapseWsL, hx] using h
      · right
        simp [collapseWsL, hx] at h
        simp [h, hx]
    | y :: rest, h =>
      by_cases hb : isWsChar x && isWsChar y
      · rw [show collapseWsL (x :: y :: rest) = collapseWsL (y :: rest) by
          simp [collapseWsL, hb]] at h
        rcases ih h with h1 | ⟨h2, h3⟩
        · exact Or.inl h1
        · exact Or.inr ⟨List.mem_cons_of_mem x h2, h3⟩
      · rw [show collapseWsL (x :: y :: rest) =
            (if isWsChar x then ' ' else x) :: collapseWsL (y :: rest) by
          simp [collapseWsL, hb]] at h
        rcases List.mem_cons.1 h with h1 | h1
        · by_cases hx : isWsChar x
          · left
            simpa [hx] using h1
          · right
            subst h1
            simp [hx]
        · rcases ih h1 with h2 | ⟨h3, h4⟩
          · exact Or.inl h2
          · exact Or.inr ⟨List.mem_cons_of_mem x h3, h4⟩

theorem collapse_head (x : Char) (rest : List Char) :
    ∃ h t, collapseWsL (x :: rest) = h :: t ∧
      (if isWsChar x then h = ' ' else h = x) := by
  induction rest generalizing x with
  | nil =>
    by_cases hx : isWsChar x
    · exact ⟨' ', [], by simp [collapseWsL, hx], by simp [hx]⟩
    · exact ⟨x, [], by simp [collapseWsL, hx], by simp [hx]⟩
  | cons y rest ih =>
    by_cases hb : isWsChar x && isWsChar y
    · obtain ⟨h, t, heq, hcond⟩ := ih y
      refine ⟨h, t, by simp [collapseWsL, hb, heq], ?_⟩
      simp only [Bool.and_eq_true] at hb
      simp only [hb.1, if_true]
      simpa [hb.2] using hcond
    · exact ⟨if isWsChar x then ' ' else x, collapseWsL (y :: rest),
        by simp [collapseWsL, hb], by split <;> rfl⟩


theorem noWsRun_collapse (l : List Char) : noWsRunB (collapseWsL l) = true := by
  induction l with
  | nil => simp [collapseWsL, noWsRunB]
  | cons x xs ih =>
    cases xs with
    | nil => by_cases hx : isWsChar x <;> simp [collapseWsL, hx, noWsRunB]
    | cons y rest =>
      by_cases hb : (isWsChar x && isWsChar y) = true
      · rw [show collapseWsL (x :: y :: rest) = collapseWsL (y :: rest) by
          simp [collapseWsL, hb]]
        exact ih
      · have hbf : (isWsChar x && isWsChar y) = false := by
          cases hq : (isWsChar x && isWsChar y)
          · rfl
          · exact absurd hq hb
        rw [show collapseWsL (x :: y :: rest) =
            (if isWsChar x then ' ' else x) :: collapseWsL (y :: rest) by
          simp [collapseWsL, hbf]]
        obtain ⟨h2, t2, heq, hcond⟩ := collapse_head y rest
        rw [heq]
        rw [heq] at ih
        have hpair : (isWsChar (if isWsChar x then ' ' else x) && isWsChar h2) = false := by
          by_cases hx : isWsChar x = true
          · have hy : isWsChar y = false := by
              cases hyy : isWsChar y
              · rfl
              · exact absurd (by simp [hx, hyy]) hb
            have hh2 : h2 = y := by simpa [hy] using hcond
            simp [hx, hh2, hy]
          · simp only [Bool.not_eq_true] at hx
            simp [hx]
        simp [noWsRunB, hpair, ih]

theorem noWsRun_tail {c : Char} {l : List Char} (h : noWsRunB (c :: l) = true) :
    noWsRunB l = true := by
  cases l with
  | nil => rfl
  | cons c2 rest =>
    simp only [noWsRunB, Bool.and_eq_true] at h
    exact h.2

theorem noWsRun_append_right {a b : List Char} (h : noWsRunB (a ++ b) = true) :
    noWsRunB b = true := by
  induction a with
  | nil => exact h
  | cons c a' ih => exact ih (noWsRun_tail h)

theorem noWsRun_append_left {a b : List Char} (h : noWsRunB (a ++ b) = true) :
    noWsRunB a = true := by
  induction a with
  | nil => rfl
  | cons c a' ih =>
    cases a' with
    | nil => rfl
    | cons c2 a'' =>
      simp only [List.cons_append, noWsRunB, Bool.and_eq_true] at h
      have h2 := ih h.2
      simp only [noWsRunB, Bool.and_eq_true]
      exact ⟨h.1, h2⟩

theorem dropWhile_suffix (p : Char → Bool) (l : List Char) :
    ∃ a, l = a ++ l.dropWhile p := by
  induction l with
  | nil => exact ⟨[], rfl⟩
  | cons c rest ih =>
    by_cases hc : p c
    · obtain ⟨a, ha⟩ := ih
      exact ⟨c :: a, by simp [List.dropWhile, hc]; exact ha⟩
    · exact ⟨[], by simp [List.dropWhile, hc]⟩

theorem trimL_infix (l : List Char) : ∃ a b, l = a ++ trimL l ++ b := by
  obtain ⟨a, ha⟩ := dropWhile_suffix isWsChar l
  obtain ⟨a2, ha2⟩ := dropWhile_suffix isWsChar (l.dropWhile isWsChar).reverse
  refine ⟨a, a2.reverse, ?_⟩
  unfold trimL
  have h3 : l.dropWhile isWsChar =
      ((l.dropWhile isWsChar).reverse.dropWhile isWsChar).reverse ++ a2.reverse := by
    have h4 := congrArg List.reverse ha2
    rw [List.reverse_reverse, List.reverse_append] at h4
    exact h4
  rw [List.append_assoc, ← h3, ← ha]

theorem noWsRun_trimL {l : List Char} (h : noWsRunB l = true) :
    noWsRunB (trimL l) = true := by
  obtain ⟨a, b, hab⟩ := trimL_infix l
  rw [hab] at h
  exact noWsRun_append_left (noWsRun_append_right (a := a) (by rwa [← List.append_assoc]))

theorem head_dropWhile {p : Char → Bool} {l : List Char} {x : Char}
    (h : (l.dropWhile p).head? = some x) : p x = false := by
  induction l with
  | nil => simp [List.dropWhile] at h
  | cons c rest ih =>
    by_cases hc : p c
    · rw [show (c :: rest).dropWhile p = rest.dropWhile p by simp [List.dropWhile, hc]] at h
      exact ih h
    · rw [show (c :: rest).dropWhile p = c :: rest by simp [List.dropWhile, hc]] at h
      simp at h
      rw [← h]
      simpa using hc

theorem getLast?_dropWhile (p : Char → Bool) (l : List Char) :
    l.dropWhile p = [] ∨ (l.dropWhile p).getLast? = l.getLast? := by
  induction l with
  | nil => exact Or.inl rfl
  | cons c rest ih =>
    by_cases hc : p c
    · rw [show (c :: rest).dropWhile p = rest.dropWhile p by simp [List.dropWhile, hc]]
      rcases ih with h | h
      · exact Or.inl h
      · cases rest with
        | nil => exact Or.inl rfl
        | cons c2 rest2 =>
          right
          rw [h]
          exact (List.getLast?_cons_cons).symm
    · rw [show (c :: rest).dropWhile p = c :: rest by simp [List.dropWhile, hc]]
      exact Or.inr rfl

theorem trimL_getLast_nonws {l : List Char} {x : Char}
    (h : (trimL l).getLast? = some x) : isWsChar x = false := by
  unfold trimL at h
  rw [List.getLast?_reverse] at h
  exact head_dropWhile h

theorem trimL_head_nonws {l : List Char} {x : Char}
    (h : (trimL l).head? = some x) : isWsChar x = false := by
  unfold trimL at h
  rw [List.head?_reverse] at h
  rcases getLast?_dropWhile isWsChar (l.dropWhile isWsChar).reverse with hnil | heq
  · rw [hnil] at h
    simp at h
  · rw [heq, List.getLast?_reverse] at h
    exact head_dropWhile h

theorem dropWs_of_head_nonws {l : List Char}
    (h : ∀ x, l.head? = some x → isWsChar x = false) :
    l.dropWhile isWsChar = l := by
  cases l with
  | nil => rfl
  | cons c rest =>
    have := h c rfl
    simp [List.dropWhile, this]

theorem trimL_fix {l : List Char}
    (h1 : ∀ x, l.head? = some x → isWsChar x = false)
    (h2 : ∀ x, l.getLast? = some x → isWsChar x = false) :
    trimL l = l := by
  unfold trimL
  rw [dropWs_of_head_nonws h1]
  rw [dropWs_of_head_nonws (by
    intro x hx
    rw [List.head?_reverse] at hx
    exact h2 x hx)]
  exact List.reverse_reverse l

theorem trimL_idem (l : List Char) : trimL (trimL l) = trimL l :=
  trimL_fix (fun _ hx => trimL_head_nonws hx) (fun _ hx => trimL_getLast_nonws hx)

theorem mem_stripBadL {m : List Char} {c : Char} (h : c ∈ stripBadL m) :
    c = ' ' ∨ (isKeepChar c = true ∧ c ∈ m) := by
  unfold stripBadL at h
  obtain ⟨a, ha, hc⟩ := List.mem_map.1 h
  by_cases hk : isKeepChar a
  · right
    rw [← hc]
    simp [hk, ha]
  · left
    rw [← hc]
    simp [hk]

theorem stripBadL_fix {l : List Char} (h : ∀ c ∈ l, isKeepChar c = true) :
    stripBadL l = l := by
  unfold stripBadL
  induction l with
  | nil => rfl
  | cons c rest ih =>
    simp only [List.map_cons]
    rw [h c (List.mem_cons_self c rest)]
    simp only [if_true]
    rw [ih fun x hx => h x (List.mem_cons_of_mem c hx)]

theorem lowerL_fix {l : List Char} (h : ∀ c ∈ l, c.toLower = c) : lowerL l = l := by
  unfold lowerL
  induction l with
  | nil => rfl
  | cons c rest ih =>
    simp only [List.map_cons]
    rw [h c (List.mem_cons_self c rest), ih fun x hx => h x (List.mem_cons_of_mem c hx)]

theorem collapse_fix {l : List Char} (h1 : noWsRunB l = true)
    (h2 : ∀ c ∈ l, isWsChar c = true → c = ' ') : collapseWsL l = l := by
  induction l with
  | nil => rfl
  | cons c rest ih =>
    cases rest with
    | nil =>
      by_cases hc : isWsChar c
      · have := h2 c (List.mem_cons_self c []) hc
        simp [collapseWsL, hc, this]
      · simp [collapseWsL, hc]
    | cons c2 rest2 =>
      have hpair : (isWsChar c && isWsChar c2) = false := by
        simp only [noWsRunB, Bool.and_eq_true] at h1
        have := h1.1
        cases hq : (isWsChar c && isWsChar c2)
        · rfl
        · rw [hq] at this
          simp at this
      rw [show collapseWsL (c :: c2 :: rest2) =
          (if isWsChar c then ' ' else c) :: collapseWsL (c2 :: rest2) by
        simp [collapseWsL, hpair]]
      have htail : collapseWsL (c2 :: rest2) = c2 :: rest2 :=
        ih (noWsRun_tail h1) fun x hx hw => h2 x (List.mem_cons_of_mem c hx) hw
      rw [htail]
      by_cases hc : isWsChar c
      · rw [h2 c (List.mem_cons_self _ _) hc]
        simp
      · simp [hc]

theorem normalize_chars {s : String} {c : Char} (h : c ∈ (normalize s).data) :
    (c = ' ' ∨ (c.isAlphanum = true ∧ isWsChar c = false)) ∧ c.toLower = c := by
  unfold normalize at h
  have h1 := mem_trimL_subset h
  rcases mem_collapseWsL h1 with hsp | ⟨h2, hnw⟩
  · subst hsp
    exact ⟨Or.inl rfl, toLower_space⟩
  · rcases mem_stripBadL h2 with hsp | ⟨hk, h3⟩
    · subst hsp
      simp [isWsChar] at hnw
    · have hal : c.isAlphanum = true := by
        unfold isKeepChar at hk
        simp only [Bool.or_eq_true] at hk
        rcases hk with h4 | h4
        · exact h4
        · rw [h4] at hnw
          exact absurd hnw (by simp)
      obtain ⟨a, _, hca⟩ := List.mem_map.1 h3
      refine ⟨Or.inr ⟨hal, hnw⟩, ?_⟩
      rw [← hca]
      exact toLower_toLower a

theorem normalize_noWsRun (s : String) : noWsRunB (normalize s).data = true := by
  unfold normalize
  exact noWsRun_trimL (noWsRun_collapse _)

theorem normalize_head_nonws {s : String} {x : Char}
    (h : (normalize s).data.head? = some x) : isWsChar x = false :=
  trimL_head_nonws h

theorem normalize_getLast_nonws {s : String} {x : Char}
    (h : (normalize s).data.getLast? = some x) : isWsChar x = false :=
  trimL_getLast_nonws h

theorem normalize_idem (s : String) : normalize (normalize s) = normalize s := by
  have hlow : lowerL (normalize s).data = (normalize s).data :=
    lowerL_fix fun c hc => (normalize_chars hc).2
  have hstrip : stripBadL (normalize s).data = (normalize s).data :=
    stripBadL_fix fun c hc => by
      rcases (normalize_chars hc).1 with h | ⟨h1, _⟩
      · subst h
        rfl
      · unfold isKeepChar
        simp [h1]
  have hcoll : collapseWsL (normalize s).data = (normalize s).data :=
    collapse_fix (normalize_noWsRun s) fun c hc hw => by
      rcases (normalize_chars hc).1 with h | ⟨_, h2⟩
      · exact h
      · rw [hw] at h2
        exact absurd h2 (by simp)
  have htrim : trimL (normalize s).data = (normalize s).data :=
    trimL_fix (fun x hx => normalize_head_nonws hx)
      (fun x hx => normalize_getLast_nonws hx)
  show (⟨trimL (collapseWsL (stripBadL (lowerL (normalize s).data)))⟩ : String) = normalize s
  rw [hlow, hstrip, hcoll, htrim]

theorem tokenize_normalize (s : String) : tokenize (normalize s) = tokenize s := by
  unfold tokenize
  rw [normalize_idem]

/-! ## Claim theorems -/

/-- Claim C10: the resolver's text normalization is idempotent —
`normalize(normalize(s)) = normalize(s)` for every string — and
consequently `tokenize(normalize(s)) = tokenize(s)`, so re-normalizing
already-normalized catalog entries or queries never changes a match
decision. -/
theorem normalize_idempotent_spec (s : String) :
    normalize (normalize s) = normalize s ∧ tokenize (normalize s) = tokenize s :=
  ⟨normalize_idem s, tokenize_normalize s⟩

/-- Claim C2: the gateway's trust boundary.  (1)/(2): `hostIsAllowed`
accepts exactly the URLs whose parsed hostname equals an allow-list entry
or ends with `"."` followed by one, and rejects unparseable URLs;
(3): an admitted `/api/fetch` request (below the concurrency ceiling) with
a URL outside the boundary is answered HTTP 403 "Domain not allowed" with
the counter restored; (4): every item returned by `/api/search` has an
allow-listed URL, whatever the upstream engine returned. -/
theorem trust_boundary_spec :
    (∀ (allowList : List String) (url h : String), parseHostname url = some h →
      (hostIsAllowed allowList url = true ↔
        ∃ d ∈ allowList, toLowerS h = d ∨ endsWithS (toLowerS h) ("." ++ d) = true)) ∧
    (∀ (allowList : List String) (url : String), parseHostname url = none →
      hostIsAllowed allowList url = false) ∧
    (∀ (maxConc : Nat) (allowList : List String) (active : Nat) (u : String)
        (body : Except Unit FetchResp), active < maxConc →
      hostIsAllowed allowList u = false →
      apiFetchStep maxConc allowList active (some u) body =
        (FetchResp.domainNotAllowed, active)) ∧
    (∀ (allowList : List String) (raw : List RawItem),
      ∀ it ∈ apiSearchItems allowList raw, hostIsAllowed allowList it.url = true) := by
  refine ⟨?_, ?_, ?_, ?_⟩
  · intro allowList url h hp
    unfold hostIsAllowed
    rw [hp]
    simp [List.any_eq_true, Bool.or_eq_true, beq_iff_eq]
  · intro allowList url hp
    unfold hostIsAllowed
    rw [hp]
  · intro maxConc allowList active u body hlt hfalse
    unfold apiFetchStep
    rw [if_neg (by omega)]
    simp [hfalse]
  · intro allowList raw it hit
    unfold apiSearchItems at hit
    obtain ⟨it0, h0, heq⟩ := List.mem_map.1 hit
    have hmem := List.mem_filter.1 h0
    rw [← heq]
    exact hmem.2

/-- Witness for C2 at concrete inputs: `who.int` allow-list,
`https://www.who.int/x` inside the boundary, `https://who.int.evil.com`
outside (403 with counter untouched), and `/api/search` filtering out the
evil item. -/
theorem trust_boundary_witness :
    hostIsAllowed ["who.int"] "https://www.who.int/x" = true ∧
    hostIsAllowed ["who.int"] "https://who.int.evil.com" = false ∧
    apiFetchStep 2 ["who.int"] 0 (some "https://who.int.evil.com")
        (Except.ok (FetchResp.upstreamOrBody 200)) =
      (FetchResp.domainNotAllowed, 0) ∧
    apiSearchItems ["who.int"]
        [{ title := "ok", link := "https://www.who.int/x", snippet := "" },
         { title := "evil", link := "https://who.int.evil.com/x", snippet := "" }] =
      [{ name := "ok", url := "https://www.who.int/x", snippet := "" }] ∧
    ∀ it ∈ apiSearchItems ["who.int"]
        [{ title := "ok", link := "https://www.who.int/x", snippet := "" },
         { title := "evil", link := "https://who.int.evil.com/x", snippet := "" }],
      hostIsAllowed ["who.int"] it.url = true := by
  refine ⟨by decide, by decide,
    trust_boundary_spec.2.2.1 2 ["who.int"] 0 "https://who.int.evil.com"
      (Except.ok (FetchResp.upstreamOrBody 200)) (by decide) (by decide),
    by decide,
    fun it hit => trust_boundary_spec.2.2.2 ["who.int"] _ it hit⟩

/-- Claim C4: the `/api/fetch` concurrency ceiling.  (1): a request
arriving at the ceiling is answered `busy` immediately with the counter
(and hence the set of admitted requests) unchanged — the state has no
queue, so nothing is queued; (2): an admitted request restores the counter
exactly once whatever its body does (success, any error response, or a
thrown exception — all values of `body`); (3): along any event trace the
counter never exceeds the ceiling; (4): the ceiling defaults to 2. -/
theorem fetch_concurrency_spec :
    (∀ (maxConc : Nat) (allowList : List String) (active : Nat)
        (url? : Option String) (body : Except Unit FetchResp),
      maxConc ≤ active →
      apiFetchStep maxConc allowList active url? body = (FetchResp.busy, active)) ∧
    (∀ (maxConc : Nat) (allowList : List String) (active : Nat)
        (url? : Option String) (body : Except Unit FetchResp),
      active < maxConc →
      (apiFetchStep maxConc allowList active url? body).2 = active) ∧
    (∀ (maxConc n : Nat) (tr : List FetchEv), n ≤ maxConc →
      runTrace maxConc n tr ≤ maxConc) ∧
    MAX_CONCURRENT_FETCHES none = 2 := by
  refine ⟨?_, ?_, ?_, rfl⟩
  · intro maxConc allowList active url? body h
    unfold apiFetchStep
    rw [if_pos h]
  · intro maxConc allowList active url? body h
    unfold apiFetchStep
    rw [if_neg (by omega)]
    simp
  · intro maxConc n tr
    induction tr generalizing n with
    | nil => intro h; exact h
    | cons e es ih =>
      intro h
      cases e with
      | arrive =>
        show runTrace maxConc (if n ≥ maxConc then n else n + 1) es ≤ maxConc
        by_cases hc : n ≥ maxConc
        · rw [if_pos hc]
          exact ih _ h
        · rw [if_neg hc]
          exact ih _ (by omega)
      | depart =>
        show runTrace maxConc (n - 1) es ≤ maxConc
        exact ih _ (by omega)

/-- Witness for C4: with the default ceiling 2, a third concurrent request
is rejected `busy` with the counter unchanged; an admitted request whose
body throws still restores the counter; a trace of three arrivals, one
departure and another arrival never pushes the counter above 2. -/
theorem fetch_concurrency_witness :
    apiFetchStep 2 ["who.int"] 2 (some "https://www.who.int/x")
        (Except.ok (FetchResp.upstreamOrBody 200)) = (FetchResp.busy, 2) ∧
    (apiFetchStep 2 ["who.int"] 1 (some "https://www.who.int/x")
        (Except.error ())).2 = 1 ∧
    runTrace 2 0 [FetchEv.arrive, FetchEv.arrive, FetchEv.arrive,
        FetchEv.depart, FetchEv.arrive] ≤ 2 :=
  ⟨fetch_concurrency_spec.1 2 ["who.int"] 2 (some "https://www.who.int/x")
      (Except.ok (FetchResp.upstreamOrBody 200)) (by decide),
   fetch_concurrency_spec.2.1 2 ["who.int"] 1 (some "https://www.who.int/x")
      (Except.error ()) (by decide),
   fetch_concurrency_spec.2.2.1 2 0 _ (by decide)⟩

/-- Counterexample to Claim C1 as stated: the message
`"how are you i dont want to live"` matches the self-harm lexicon and
`detectIntent` classifies it `"emergency"`, but submitted to an idle
session it matches the social-check-in pattern, which the submit handler
checks *before* intent detection, so the router replies with the social
acknowledgement, not the crisis message. -/
theorem emergency_shadowed_by_social_counterexample :
    anyWb selfHarmAlts (trimL (lowerL "how are you i dont want to live".data)) = true ∧
    detectIntent "how are you i dont want to live" = "emergency" ∧
    initialSession.awaitingSearchConsent = none ∧
    (handleSubmit [] initialSession "how are you i dont want to live").2 =
      RouterAction.socialAck ∧
    RouterAction.socialAck ≠ RouterAction.crisis := by
  refine ⟨by decide, by decide, rfl, by decide, by decide⟩

/-- Claim C1 (amended): for every input matching the self-harm or acute
physical-emergency lexicon, `detectIntent` returns `"emergency"` regardless
of any other pattern the text matches; and every such message submitted
while the session is idle that does not also match the social-check-in or
greeting patterns (which the handler checks earlier) gets the fixed
crisis-resources reply, an action that involves no model completion or
network call. -/
theorem emergency_short_circuit_spec (t : String) (cat : List Topic) (s : Session)
    (hlex : (anyWb selfHarmAlts (trimL (lowerL t.data)) ||
             anyWb emergencyPhysAlts (trimL (lowerL t.data))) = true)
    (hsoc : isSocialCheckIn t = false) (hgr : isGreeting t = false)
    (hidle : s.awaitingSearchConsent = none) :
    detectIntent t = "emergency" ∧
    (handleSubmit cat s t).2 = RouterAction.crisis ∧
    RouterAction.crisis.usesModelOrNetwork = false := by
  have hdet : detectIntent t = "emergency" := by
    unfold detectIntent
    rw [if_pos hlex]
  refine ⟨hdet, ?_, rfl⟩
  unfold handleSubmit
  rw [hsoc]
  simp only [Bool.false_eq_true, if_false]
  rw [hgr]
  simp only [Bool.false_eq_true, if_false]
  rw [hidle]
  unfold classifyTail
  rw [hdet]
  simp [quickReply]

/-- Witness for the amended C1: `"i want to kill myself"` hits the lexicon,
matches neither the social-check-in nor the greeting pattern, and is routed
to the crisis reply. -/
theorem emergency_short_circuit_witness :
    detectIntent "i want to kill myself" = "emergency" ∧
    (handleSubmit [] initialSession "i want to kill myself").2 = RouterAction.crisis ∧
    RouterAction.crisis.usesModelOrNetwork = false :=
  emergency_short_circuit_spec "i want to kill myself" [] initialSession
    (by decide) (by decide) (by decide) rfl

theorem isPrefixL_exists {p l : List Char} (h : isPrefixL p l = true) :
    ∃ r, l = p ++ r := by
  induction p generalizing l with
  | nil => exact ⟨l, rfl⟩
  | cons c ps ih =>
    cases l with
    | nil => simp [isPrefixL] at h
    | cons x xs =>
      simp only [isPrefixL, Bool.and_eq_true, decide_eq_true_eq] at h
      obtain ⟨r, hr⟩ := ih h.2
      exact ⟨r, by rw [h.1, hr]; rfl⟩

theorem info_intent_head {i : String} (h : isInfoIntent i = true) :
    i.data.head? = some 'i' := by
  unfold isInfoIntent at h
  simp only [Bool.or_eq_true, beq_iff_eq] at h
  rcases h with h | h
  · rw [h]
    decide
  · obtain ⟨r, hr⟩ := isPrefixL_exists h
    rw [hr]
    rfl

theorem info_intent_quick_checks {i : String} (hh : i.data.head? = some 'i') :
    (i == "emergency") = false ∧ (i == "gratitude") = false ∧
    (i == "goodbye") = false ∧ (i == "clarify") = false ∧
    (i == "followup") = false ∧ (i == "care_nav") = false ∧
    (i == "smalltalk") = false := by
  refine ⟨?_, ?_, ?_, ?_, ?_, ?_, ?_⟩ <;>
  · rw [beq_eq_false_iff_ne]
    intro heq
    rw [heq] at hh
    exact absurd hh (by decide)

theorem classifyTail_pending (cat : List Topic) (s : Session) (text : String)
    (h : s.awaitingSearchConsent = none) :
    (classifyTail cat s text).1.awaitingSearchConsent = none ∨
    (classifyTail cat s text).1.awaitingSearchConsent = some text := by
  simp only [classifyTail]
  cases hq : quickReply (detectIntent text) with
  | some a => exact Or.inl h
  | none =>
    cases hf : findTopicForMessage cat text with
    | some topic => exact Or.inl h
    | none =>
      by_cases hi : isInfoIntent (detectIntent text) = true
      · rw [if_pos hi]
        cases hm : intentToTopic (detectIntent text) with
        | some path => exact Or.inl h
        | none =>
          by_cases ho : s.searchOptIn = true
          · rw [if_pos ho]
            exact Or.inl h
          · rw [if_neg ho]
            exact Or.inr rfl
      · rw [if_neg hi]
        exact Or.inl h

theorem quickReply_of_info {i : String} (h : isInfoIntent i = true) :
    quickReply i = none := by
  have hchecks := info_intent_quick_checks (info_intent_head h)
  unfold quickReply
  rw [hchecks.1, hchecks.2.1, hchecks.2.2.1, hchecks.2.2.2.1,
    hchecks.2.2.2.2.1, hchecks.2.2.2.2.2.1, hchecks.2.2.2.2.2.2]
  simp

theorem classifyTail_consent_ask (cat : List Topic) (s : Session) (text : String)
    (hinfo : isInfoIntent (detectIntent text) = true)
    (hft : findTopicForMessage cat text = none)
    (hmap : intentToTopic (detectIntent text) = none)
    (hopt : s.searchOptIn = false) :
    classifyTail cat s text =
      ({ s with awaitingSearchConsent := some text }, RouterAction.consentAsk) := by
  simp only [classifyTail, quickReply_of_info hinfo, hft, hmap, hinfo, hopt]
  simp

/-- Counterexample to Claim C5 as stated: with a consent request pending
(stored query `"what is birth control"`), the next message `"hi"` is
neither affirmative nor negative, yet it does *not* clear the pending slot:
the greeting check runs before the consent block, replies with a greeting,
and leaves the stored query pending. -/
theorem consent_pending_survives_greeting_counterexample :
    yesLexicon "hi" = false ∧ noLexicon "hi" = false ∧
    (handleSubmit []
        { initialSession with awaitingSearchConsent := some "what is birth control" }
        "hi").1.awaitingSearchConsent = some "what is birth control" ∧
    (handleSubmit []
        { initialSession with awaitingSearchConsent := some "what is birth control" }
        "hi").2 = RouterAction.greetFresh := by
  refine ⟨by decide, by decide, by decide, by decide⟩

/-- Claim C5 (amended): the consent flow, for messages that match neither
the social-check-in nor the greeting pattern (those are answered earlier
and leave the pending slot untouched).  (0) An info-classified query with
no local document, no intent-mapped document and no prior consent stores
the query and asks for consent.  With a request pending: (1) an
affirmative match sets the session consent flag, clears the slot and
replays the stored query through the info flow; (2) a negative match
clears the slot and acknowledges, leaving the flag unchanged; (3) any
other message is processed exactly as in a session whose pending slot was
cleared — the stored query is forfeited — and afterwards the slot is
either empty or holds the new message, so at most one consent request is
ever pending. -/
theorem consent_flow_spec :
    (∀ (cat : List Topic) (s : Session) (text : String),
      s.awaitingSearchConsent = none → isSocialCheckIn text = false →
      isGreeting text = false → isInfoIntent (detectIntent text) = true →
      findTopicForMessage cat text = none →
      intentToTopic (detectIntent text) = none → s.searchOptIn = false →
      (handleSubmit cat s text).1.awaitingSearchConsent = some text ∧
      (handleSubmit cat s text).2 = RouterAction.consentAsk) ∧
    (∀ (cat : List Topic) (s : Session) (orig text : String),
      s.awaitingSearchConsent = some orig → isSocialCheckIn text = false →
      isGreeting text = false → yesLexicon text = true →
      (handleSubmit cat s text).1.searchOptIn = true ∧
      (handleSubmit cat s text).1.awaitingSearchConsent = none ∧
      (handleSubmit cat s text).2 = handleInfoLike cat orig (detectIntent orig)) ∧
    (∀ (cat : List Topic) (s : Session) (orig text : String),
      s.awaitingSearchConsent = some orig → isSocialCheckIn text = false →
      isGreeting text = false → yesLexicon text = false → noLexicon text = true →
      (handleSubmit cat s text).1.awaitingSearchConsent = none ∧
      (handleSubmit cat s text).1.searchOptIn = s.searchOptIn ∧
      (handleSubmit cat s text).2 = RouterAction.consentDenied) ∧
    (∀ (cat : List Topic) (s : Session) (orig text : String),
      s.awaitingSearchConsent = some orig → isSocialCheckIn text = false →
      isGreeting text = false → yesLexicon text = false → noLexicon text = false →
      handleSubmit cat s text =
        classifyTail cat
          { s with historyLen := pushHist s.historyLen,
                   awaitingSearchConsent := none } text ∧
      ((handleSubmit cat s text).1.awaitingSearchConsent = none ∨
       (handleSubmit cat s text).1.awaitingSearchConsent = some text)) := by
  refine ⟨?_, ?_, ?_, ?_⟩
  · intro cat s text hp hsoc hgr hinfo hft hmap hopt
    have hct := classifyTail_consent_ask cat
      { s with historyLen := pushHist s.historyLen, awaitingSearchConsent := none }
      text hinfo hft hmap hopt
    simp only [handleSubmit, hsoc, Bool.false_eq_true, if_false, hgr, hp]
    rw [hct]
    exact ⟨rfl, rfl⟩
  · intro cat s orig text hp hsoc hgr hyes
    simp only [handleSubmit, hsoc, Bool.false_eq_true, if_false, hgr, hp, hyes,
      if_true]
    refine ⟨?_, ?_, ?_⟩ <;> trivial
  · intro cat s orig text hp hsoc hgr hyes hno
    simp only [handleSubmit, hsoc, Bool.false_eq_true, if_false, hgr, hp, hyes,
      hno, if_true]
    refine ⟨?_, ?_, ?_⟩ <;> trivial
  · intro cat s orig text hp hsoc hgr hyes hno
    have heq : handleSubmit cat s text =
        classifyTail cat
          { s with historyLen := pushHist s.historyLen,
                   awaitingSearchConsent := none } text := by
      simp only [handleSubmit, hsoc, Bool.false_eq_true, if_false, hgr, hp, hyes,
        hno]
    refine ⟨heq, ?_⟩
    rw [heq]
    exact classifyTail_pending cat _ text rfl

/-- Witness for the amended C5: with `"what is birth control"` pending and
an empty catalog, the reply `"yes"` grants consent, clears the slot and
replays the stored query (which the info flow resolves through the local
intent→topic map); the reply `"nah"` declines and clears the slot; and the
fresh query `"what is malaria"` (info-classified, no document) stores a
pending consent request. -/
theorem consent_flow_witness :
    (handleSubmit []
        { initialSession with awaitingSearchConsent := some "what is birth control" }
        "yes").1.searchOptIn = true ∧
    (handleSubmit []
        { initialSession with awaitingSearchConsent := some "what is birth control" }
        "yes").1.awaitingSearchConsent = none ∧
    (handleSubmit []
        { initialSession with awaitingSearchConsent := some "what is birth control" }
        "yes").2 =
      handleInfoLike [] "what is birth control" (detectIntent "what is birth control") ∧
    (handleSubmit []
        { initialSession with awaitingSearchConsent := some "what is birth control" }
        "nah").2 = RouterAction.consentDenied ∧
    (handleSubmit [] initialSession "what is malaria").1.awaitingSearchConsent =
      some "what is malaria" := by
  have h1 := consent_flow_spec.2.1 []
    { initialSession with awaitingSearchConsent := some "what is birth control" }
    "what is birth control" "yes" rfl (by decide) (by decide) (by decide)
  have h2 := consent_flow_spec.2.2.1 []
    { initialSession with awaitingSearchConsent := some "what is birth control" }
    "what is birth control" "nah" rfl (by decide) (by decide) (by decide) (by decide)
  have h3 := consent_flow_spec.1 [] initialSession "what is malaria" rfl
    (by decide) (by decide) (by decide) (by decide) (by decide) rfl
  exact ⟨h1.1, h1.2.1, h1.2.2, h2.2.2, h3.1⟩

/-- Claim C8 (code bug): the automatic advance to the next candidate never
happens.  With two candidates where fetching the first fails (HTTP 500)
and the second would succeed, the emitted messages are exactly the opening
note and the "Trying the next one…" failure message: the recursive advance
call runs while the `fetchingNow` re-entrancy flag is still `true` and
returns immediately, so the second candidate is never fetched, no summary
and no exhaustion message appear — although fetching candidate 1 directly
(flag clear) would succeed.  This contradicts both the claim and the
code's own "Trying the next one…" message. -/
theorem fetchAndSummarize_advance_noop_bug :
    fetchAndSummarize ["https://a.example/one", "https://b.example/two"]
        (fun i => if i == 0 then FetchOut.httpFail 500 else FetchOut.okText)
        false 0 2
      = [BotMsg.openingSource, BotMsg.httpFailTryNext 500] ∧
    BotMsg.noOtherSources ∉ [BotMsg.openingSource, BotMsg.httpFailTryNext 500] ∧
    BotMsg.summarized 1 ∉ [BotMsg.openingSource, BotMsg.httpFailTryNext 500] ∧
    fetchAndSummarize ["https://a.example/one", "https://b.example/two"]
        (fun i => if i == 0 then FetchOut.httpFail 500 else FetchOut.okText)
        false 1 1
      = [BotMsg.openingSource, BotMsg.summarized 1] ∧
    fetchAndSummarize ["https://a.example/one", "https://b.example/two"]
        (fun i => if i == 0 then FetchOut.httpFail 500 else FetchOut.okText)
        true 1 1
      = [] := by
  refine ⟨by decide, by decide, by decide, by decide, by decide⟩

/-- Claim C9 (code bug): `startWebSearch` sorts *before* assigning
`lastSearch = { query: userText, items }`, so `scoreResult` reads the
previous search's query (empty on the first search).  For the query
`"breastfeeding help"` and two candidates — `A` a WHO health-topics page
with an uninformative title, `B` a NICE guidance page titled
"breastfeeding guideline" — the presented order under the stale empty
query is `[B, A]`, while ranking by `scoreResult` with the current query,
as the claim requires, gives `[A, B]`: under the current query `A` earns
the category match (+3) and the WHO health-topics co-occurrence bonus
(+4), scoring 14 against `B`'s 11, but with the stale query it scores
only 7. -/
theorem startWebSearch_stale_query_bug :
    scoreResult ""
        { name := "x", url := "https://www.who.int/health-topics/page",
          snippet := "" } = 7 ∧
    scoreResult "breastfeeding help"
        { name := "x", url := "https://www.who.int/health-topics/page",
          snippet := "" } = 14 ∧
    scoreResult ""
        { name := "breastfeeding guideline",
          url := "https://www.nice.org.uk/guidance/xyz", snippet := "" } = 11 ∧
    scoreResult "breastfeeding help"
        { name := "breastfeeding guideline",
          url := "https://www.nice.org.uk/guidance/xyz", snippet := "" } = 11 ∧
    startWebSearchRanked ""
        [{ name := "x", url := "https://www.who.int/health-topics/page",
           snippet := "" },
         { name := "breastfeeding guideline",
           url := "https://www.nice.org.uk/guidance/xyz", snippet := "" }] =
      [{ name := "breastfeeding guideline",
         url := "https://www.nice.org.uk/guidance/xyz", snippet := "" },
       { name := "x", url := "https://www.who.int/health-topics/page",
         snippet := "" }] ∧
    sortByScoreDesc (scoreResult "breastfeeding help")
        [{ name := "x", url := "https://www.who.int/health-topics/page",
           snippet := "" },
         { name := "breastfeeding guideline",
           url := "https://www.nice.org.uk/guidance/xyz", snippet := "" }] =
      [{ name := "x", url := "https://www.who.int/health-topics/page",
         snippet := "" },
       { name := "breastfeeding guideline",
         url := "https://www.nice.org.uk/guidance/xyz", snippet := "" }] ∧
    startWebSearchRanked ""
        [{ name := "x", url := "https://www.who.int/health-topics/page",
           snippet := "" },
         { name := "breastfeeding guideline",
           url := "https://www.nice.org.uk/guidance/xyz", snippet := "" }] ≠
      sortByScoreDesc (scoreResult "breastfeeding help")
        [{ name := "x", url := "https://www.who.int/health-topics/page",
           snippet := "" },
         { name := "breastfeeding guideline",
           url := "https://www.nice.org.uk/guidance/xyz", snippet := "" }] := by
  refine ⟨by decide, by decide, by decide, by decide, by decide, by decide, by decide⟩

theorem dedupByKeyAux_cons (seen : List String) (b : String) (rest : List String) :
    dedupByKeyAux seen (b :: rest) =
      if seen.contains (bulletKey b) = true then dedupByKeyAux seen rest
      else b :: dedupByKeyAux (bulletKey b :: seen) rest := rfl

theorem dedupByKeyAux_sublist (l : List String) :
    ∀ seen, (dedupByKeyAux seen l).Sublist l := by
  induction l with
  | nil => intro seen; exact List.Sublist.refl []
  | cons b rest ih =>
    intro seen
    rw [dedupByKeyAux_cons]
    by_cases hc : seen.contains (bulletKey b) = true
    · rw [if_pos hc]
      exact (ih seen).cons b
    · rw [if_neg hc]
      exact (ih _).cons₂ b

theorem dedupByKeyAux_cover (l : List String) :
    ∀ seen x, x ∈ l →
      seen.contains (bulletKey x) = true ∨
        ∃ y ∈ dedupByKeyAux seen l, bulletKey y = bulletKey x := by
  induction l with
  | nil => intro seen x hx; simp at hx
  | cons b rest ih =>
    intro seen x hx
    rw [dedupByKeyAux_cons]
    by_cases hc : seen.contains (bulletKey b) = true
    · rw [if_pos hc]
      rcases List.mem_cons.1 hx with hxb | hxr
      · subst hxb
        exact Or.inl hc
      · exact ih seen x hxr
    · rw [if_neg hc]
      rcases List.mem_cons.1 hx with hxb | hxr
      · subst hxb
        exact Or.inr ⟨x, List.mem_cons_self _ _, rfl⟩
      · rcases ih (bulletKey b :: seen) x hxr with hseen | ⟨y, hy, hky⟩
        · rw [List.contains_cons] at hseen
          simp only [Bool.or_eq_true] at hseen
          rcases hseen with hk | hk
          · exact Or.inr ⟨b, List.mem_cons_self _ _, (beq_iff_eq.1 hk).symm⟩
          · exact Or.inl hk
        · exact Or.inr ⟨y, List.mem_cons_of_mem b hy, hky⟩

theorem dedupByKeyAux_unseen (l : List String) :
    ∀ seen y, y ∈ dedupByKeyAux seen l → seen.contains (bulletKey y) = false := by
  induction l with
  | nil => intro seen y hy; simp [dedupByKeyAux] at hy
  | cons b rest ih =>
    intro seen y hy
    rw [dedupByKeyAux_cons] at hy
    by_cases hc : seen.contains (bulletKey b) = true
    · rw [if_pos hc] at hy
      exact ih seen y hy
    · rw [if_neg hc] at hy
      rcases List.mem_cons.1 hy with hyb | hyr
      · subst hyb
        exact Bool.eq_false_iff.2 hc
      · have h2 := ih (bulletKey b :: seen) y hyr
        rw [List.contains_cons] at h2
        exact (Bool.or_eq_false_iff.1 h2).2

theorem dedupByKeyAux_pairwise (l : List String) :
    ∀ seen, (dedupByKeyAux seen l).Pairwise fun a b => bulletKey a ≠ bulletKey b := by
  induction l with
  | nil => intro seen; exact List.Pairwise.nil
  | cons b rest ih =>
    intro seen
    rw [dedupByKeyAux_cons]
    by_cases hc : seen.contains (bulletKey b) = true
    · rw [if_pos hc]
      exact ih seen
    · rw [if_neg hc]
      refine List.Pairwise.cons ?_ (ih _)
      intro y hy hkey
      have h2 := dedupByKeyAux_unseen rest _ y hy
      rw [List.contains_cons] at h2
      have h3 := (Bool.or_eq_false_iff.1 h2).1
      rw [← hkey] at h3
      simp at h3

theorem dedupByKeyAux_congr (l : List String) :
    ∀ s1 s2, (∀ k, s1.contains k = s2.contains k) →
      dedupByKeyAux s1 l = dedupByKeyAux s2 l := by
  induction l with
  | nil => intro s1 s2 _; rfl
  | cons b rest ih =>
    intro s1 s2 h
    rw [dedupByKeyAux_cons, dedupByKeyAux_cons, h (bulletKey b)]
    by_cases hc : s2.contains (bulletKey b) = true
    · rw [if_pos hc, if_pos hc]
      exact ih s1 s2 h
    · rw [if_neg hc, if_neg hc]
      rw [ih (bulletKey b :: s1) (bulletKey b :: s2) fun k => by
        rw [List.contains_cons, List.contains_cons, h k]]

theorem dedupByKeyAux_filter (l : List String) :
    ∀ seen k, dedupByKeyAux (k :: seen) l =
      dedupByKeyAux seen (l.filter fun b => !(bulletKey b == k)) := by
  induction l with
  | nil => intro seen k; rfl
  | cons b rest ih =>
    intro seen k
    by_cases hk : (bulletKey b == k) = true
    · have hc : (k :: seen).contains (bulletKey b) = true := by
        rw [List.contains_cons]
        simp [beq_iff_eq.1 hk]
      rw [dedupByKeyAux_cons, if_pos hc]
      rw [show (b :: rest).filter (fun b => !(bulletKey b == k)) =
          rest.filter (fun b => !(bulletKey b == k)) by
        simp [List.filter_cons, hk]]
      exact ih seen k
    · have hkf : (bulletKey b == k) = false := Bool.eq_false_iff.2 hk
      rw [show (b :: rest).filter (fun b => !(bulletKey b == k)) =
          b :: rest.filter (fun b => !(bulletKey b == k)) by
        simp [List.filter_cons, hkf]]
      by_cases hc : seen.contains (bulletKey b) = true
      · have hc2 : (k :: seen).contains (bulletKey b) = true := by
          rw [List.contains_cons, hc]
          simp
        rw [dedupByKeyAux_cons, if_pos hc2, dedupByKeyAux_cons, if_pos hc]
        exact ih seen k
      · have hc2 : (k :: seen).contains (bulletKey b) = false := by
          rw [List.contains_cons]
          simp only [Bool.or_eq_false_iff]
          exact ⟨hkf, Bool.eq_false_iff.2 hc⟩
        rw [dedupByKeyAux_cons, if_neg (by rw [hc2]; simp),
          dedupByKeyAux_cons, if_neg hc]
        rw [dedupByKeyAux_congr rest (bulletKey b :: k :: seen) (k :: bulletKey b :: seen)
          fun k2 => by
            rw [List.contains_cons, List.contains_cons, List.contains_cons,
              List.contains_cons]
            cases h1 : k2 == bulletKey b <;> cases h2 : k2 == k <;> simp]
        rw [ih (bulletKey b :: seen) k]

theorem extractBullets_substring (e d : String) :
    ∀ b ∈ extractBullets e d, containsSubS e b = true := by
  intro b hb
  simp only [extractBullets] at hb
  have h1 := List.mem_of_mem_take hb
  have h2 := (dedupByKeyAux_sublist _ []).subset h1
  exact (List.mem_filter.1 h2).2

theorem summarizePhase_eq (raw d1 d2 : String) :
    summarizePhase raw d1 d2 =
      (if (extractBullets ⟨raw.data.take 8000⟩ d1).isEmpty = true then
        (if ((raw.data.drop 6000).take 8000).length > 500 then
          (if (extractBullets ⟨(raw.data.drop 6000).take 8000⟩ d2).isEmpty = true then
            SummarizeOutcome.noQuote
          else
            SummarizeOutcome.retryPass
              (extractBullets ⟨(raw.data.drop 6000).take 8000⟩ d2))
        else SummarizeOutcome.noQuote)
      else SummarizeOutcome.firstPass (extractBullets ⟨raw.data.take 8000⟩ d1)) := rfl

/-- Claim C3: the extractive-summary pipeline.  Every kept bullet is a
verbatim case-sensitive substring of the excerpt it was drawn from; at
most 5 bullets are kept; kept bullets are pairwise distinct under the
case-insensitive whitespace-collapsed key; the deduplication keeps the
first occurrence of each key (sublist + coverage + head equation); a
first-pass answer quotes `rawText.slice(0, 8000)` and a retry answer
quotes `rawText.slice(6000, 14000)` after an empty first pass; and the
"no quotable content" reply is produced exactly when the first pass is
empty and the retry either was not possible (window ≤ 500 chars) or was
also empty. -/
theorem extractive_summary_spec :
    (∀ e d, ∀ b ∈ extractBullets e d, containsSubS e b = true) ∧
    (∀ e d, (extractBullets e d).length ≤ 5) ∧
    (∀ e d, (extractBullets e d).Pairwise fun a b => bulletKey a ≠ bulletKey b) ∧
    (∀ l : List String, (dedupByKey l).Sublist l) ∧
    (∀ l : List String, ∀ x ∈ l, ∃ y ∈ dedupByKey l, bulletKey y = bulletKey x) ∧
    (∀ (a : String) (l : List String), dedupByKey (a :: l) =
      a :: dedupByKey (l.filter fun b => !(bulletKey b == bulletKey a))) ∧
    (∀ raw d1 d2 bs, summarizePhase raw d1 d2 = SummarizeOutcome.firstPass bs →
      bs = extractBullets ⟨raw.data.take 8000⟩ d1 ∧ bs ≠ [] ∧
      ∀ b ∈ bs, containsSubS ⟨raw.data.take 8000⟩ b = true) ∧
    (∀ raw d1 d2 bs, summarizePhase raw d1 d2 = SummarizeOutcome.retryPass bs →
      extractBullets ⟨raw.data.take 8000⟩ d1 = [] ∧
      bs = extractBullets ⟨(raw.data.drop 6000).take 8000⟩ d2 ∧ bs ≠ [] ∧
      ∀ b ∈ bs, containsSubS ⟨(raw.data.drop 6000).take 8000⟩ b = true) ∧
    (∀ raw d1 d2, summarizePhase raw d1 d2 = SummarizeOutcome.noQuote ↔
      (extractBullets ⟨raw.data.take 8000⟩ d1 = [] ∧
        (((raw.data.drop 6000).take 8000).length ≤ 500 ∨
          extractBullets ⟨(raw.data.drop 6000).take 8000⟩ d2 = []))) := by
  refine ⟨extractBullets_substring, ?_, ?_, ?_, ?_, ?_, ?_, ?_, ?_⟩
  · intro e d
    simp only [extractBullets]
    rw [List.length_take]
    exact min_le_left _ _
  · intro e d
    simp only [extractBullets]
    exact List.Pairwise.sublist (List.take_sublist _ _) (dedupByKeyAux_pairwise _ [])
  · intro l
    exact dedupByKeyAux_sublist l []
  · intro l x hx
    rcases dedupByKeyAux_cover l [] x hx with hfalse | h
    · simp [List.contains] at hfalse
    · exact h
  · intro a l
    rw [show dedupByKey (a :: l) = a :: dedupByKeyAux [bulletKey a] l by
      rfl]
    rw [show ([bulletKey a] : List String) = bulletKey a :: [] from rfl]
    rw [dedupByKeyAux_filter l [] (bulletKey a)]
    rfl
  · intro raw d1 d2 bs h
    rw [summarizePhase_eq] at h
    by_cases h1 : (extractBullets ⟨raw.data.take 8000⟩ d1).isEmpty = true
    · rw [if_pos h1] at h
      by_cases h2 : ((raw.data.drop 6000).take 8000).length > 500
      · rw [if_pos h2] at h
        by_cases h3 : (extractBullets ⟨(raw.data.drop 6000).take 8000⟩ d2).isEmpty = true
        · rw [if_pos h3] at h
          exact absurd h (by simp)
        · rw [if_neg h3] at h
          exact absurd h (by simp)
      · rw [if_neg h2] at h
        exact absurd h (by simp)
    · rw [if_neg h1] at h
      have hbs : bs = extractBullets ⟨raw.data.take 8000⟩ d1 :=
        (SummarizeOutcome.firstPass.injEq _ _).mp h.symm
      refine ⟨hbs, ?_, ?_⟩
      · rw [hbs]
        intro hem
        exact h1 (by rw [hem]; rfl)
      · rw [hbs]
        exact extractBullets_substring _ _
  · intro raw d1 d2 bs h
    rw [summarizePhase_eq] at h
    by_cases h1 : (extractBullets ⟨raw.data.take 8000⟩ d1).isEmpty = true
    · rw [if_pos h1] at h
      by_cases h2 : ((raw.data.drop 6000).take 8000).length > 500
      · rw [if_pos h2] at h
        by_cases h3 : (extractBullets ⟨(raw.data.drop 6000).take 8000⟩ d2).isEmpty = true
        · rw [if_pos h3] at h
          exact absurd h (by simp)
        · rw [if_neg h3] at h
          have hbs : bs = extractBullets ⟨(raw.data.drop 6000).take 8000⟩ d2 :=
            (SummarizeOutcome.retryPass.injEq _ _).mp h.symm
          refine ⟨List.isEmpty_iff.1 h1, hbs, ?_, ?_⟩
          · rw [hbs]
            intro hem
            exact h3 (by rw [hem]; rfl)
          · rw [hbs]
            exact extractBullets_substring _ _
      · rw [if_neg h2] at h
        exact absurd h (by simp)
    · rw [if_neg h1] at h
      exact absurd h (by simp)
  · intro raw d1 d2
    rw [summarizePhase_eq]
    by_cases h1 : (extractBullets ⟨raw.data.take 8000⟩ d1).isEmpty = true
    · rw [if_pos h1]
      by_cases h2 : ((raw.data.drop 6000).take 8000).length > 500
      · rw [if_pos h2]
        by_cases h3 : (extractBullets ⟨(raw.data.drop 6000).take 8000⟩ d2).isEmpty = true
        · rw [if_pos h3]
          simp only [true_iff]
          exact ⟨List.isEmpty_iff.1 h1, Or.inr (List.isEmpty_iff.1 h3)⟩
        · rw [if_neg h3]
          constructor
          · intro hcon
            exact absurd hcon (by simp)
          · rintro ⟨-, hcase⟩
            rcases hcase with hlen | hemp
            · omega
            · exact absurd (List.isEmpty_iff.2 hemp) h3
      · rw [if_neg h2]
        simp only [true_iff]
        exact ⟨List.isEmpty_iff.1 h1, Or.inl (by omega)⟩
    · rw [if_neg h1]
      constructor
      · intro hcon
        exact absurd hcon (by simp)
      · rintro ⟨hemp, -⟩
        exact absurd (List.isEmpty_iff.2 hemp) h1

/-- Witness for C3 at the spec's Scenario D: excerpt
`"The sky is blue. Rain is wet."` with a model draft containing one
verbatim line, one fabricated line and one case-mangled duplicate — only
the verbatim lines survive, each a substring of the excerpt, and a
fabricated-only draft yields the no-quotable-content outcome. -/
theorem extractive_summary_witness :
    extractBullets "The sky is blue. Rain is wet."
        "• The sky is blue.\n• Fabricated claim.\n- Rain is wet." =
      ["The sky is blue.", "Rain is wet."] ∧
    containsSubS "The sky is blue. Rain is wet." "The sky is blue." = true ∧
    (extractBullets "The sky is blue. Rain is wet."
        "• The sky is blue.\n• Fabricated claim.\n- Rain is wet.").length ≤ 5 ∧
    summarizePhase "The sky is blue. Rain is wet." "• Fabricated claim." "x" =
      SummarizeOutcome.noQuote := by
  refine ⟨by decide, ?_, extractive_summary_spec.2.1 _ _, ?_⟩
  · exact extractive_summary_spec.1 "The sky is blue. Rain is wet."
      "• The sky is blue.\n• Fabricated claim.\n- Rain is wet."
      "The sky is blue." (by decide)
  · exact (extractive_summary_spec.2.2.2.2.2.2.2.2 "The sky is blue. Rain is wet."
      "• Fabricated claim." "x").mpr ⟨by decide, Or.inl (by decide)⟩

theorem find?_first {α : Type} (p : α → Bool) :
    ∀ (l₁ : List α) (t : α) (l₂ : List α), p t = true →
      (∀ u ∈ l₁, p u = false) → List.find? p (l₁ ++ t :: l₂) = some t := by
  intro l₁
  induction l₁ with
  | nil =>
    intro t l₂ hp _
    simp [List.find?, hp]
  | cons u l₁ ih =>
    intro t l₂ hp hall
    have hu : p u = false := hall u (List.mem_cons_self _ _)
    rw [List.cons_append, List.find?_cons, hu]
    exact ih t l₂ hp fun v hv => hall v (List.mem_cons_of_mem u hv)

theorem fuzzyAux_keep (f : Topic → Nat) :
    ∀ (l : List Topic) (b : Option Topic) (s : Nat),
      (∀ t ∈ l, f t ≤ s) → fuzzyAux f l (b, s) = (b, s) := by
  intro l
  induction l with
  | nil => intro b s _; rfl
  | cons t rest ih =>
    intro b s hall
    unfold fuzzyAux
    rw [if_neg (by
      have := hall t (List.mem_cons_self _ _)
      omega)]
    exact ih b s fun u hu => hall u (List.mem_cons_of_mem t hu)

theorem fuzzyAux_pick (f : Topic → Nat) :
    ∀ (l₁ : List Topic) (t : Topic) (l₂ : List Topic) (b : Option Topic) (s : Nat),
      s < f t → (∀ u ∈ l₁, f u < f t) → (∀ u ∈ l₂, f u ≤ f t) →
      fuzzyAux f (l₁ ++ t :: l₂) (b, s) = (some t, f t) := by
  intro l₁
  induction l₁ with
  | nil =>
    intro t l₂ b s hs _ hl₂
    rw [List.nil_append]
    unfold fuzzyAux
    rw [if_pos (by omega)]
    exact fuzzyAux_keep f l₂ (some t) (f t) hl₂
  | cons u l₁ ih =>
    intro t l₂ b s hs hl₁ hl₂
    have hu : f u < f t := hl₁ u (List.mem_cons_self _ _)
    rw [List.cons_append]
    unfold fuzzyAux
    by_cases hc : f u > s
    · rw [if_pos hc]
      exact ih t l₂ (some u) (f u) hu
        (fun v hv => hl₁ v (List.mem_cons_of_mem u hv)) hl₂
    · rw [if_neg hc]
      exact ih t l₂ b s hs
        (fun v hv => hl₁ v (List.mem_cons_of_mem u hv)) hl₂

theorem fuzzyAux_bound (f : Topic → Nat) (bnd : Nat) :
    ∀ (l : List Topic) (b : Option Topic) (s : Nat),
      (∀ t ∈ l, f t ≤ bnd) → s ≤ bnd → (fuzzyAux f l (b, s)).2 ≤ bnd := by
  intro l
  induction l with
  | nil => intro b s _ hs; exact hs
  | cons t rest ih =>
    intro b s hall hs
    unfold fuzzyAux
    by_cases hc : f t > s
    · rw [if_pos hc]
      exact ih (some t) (f t) (fun u hu => hall u (List.mem_cons_of_mem t hu))
        (hall t (List.mem_cons_self _ _))
    · rw [if_neg hc]
      exact ih b s (fun u hu => hall u (List.mem_cons_of_mem t hu)) hs

set_option maxHeartbeats 1000000 in
/-- Claim C6: the knowledge-pack resolver.  (1) First match wins on
normalized-title containment; (2) else on normalized
keyword/alias/tag containment; (3) else the token-overlap fallback
returns the first topic attaining the maximal overlap, provided that
maximum is at least 2; (4) when every overlap is below 2 (and stages 1-2
found nothing) the resolver returns `undefined`; (5) normalization
lowercases, leaves only letters/digits/single spaces, and is
trimmed with no whitespace runs; (6) the function is pure — equal inputs
give equal results. -/
theorem findTopicForMessage_spec :
    (∀ (l₁ : List Topic) (t : Topic) (l₂ : List Topic) (text : String),
      containsSubS (normalize text) (normalize t.title) = true →
      (∀ u ∈ l₁, containsSubS (normalize text) (normalize u.title) = false) →
      findTopicForMessage (l₁ ++ t :: l₂) text = some t) ∧
    (∀ (l₁ : List Topic) (t : Topic) (l₂ : List Topic) (text : String),
      (∀ u ∈ l₁ ++ t :: l₂,
        containsSubS (normalize text) (normalize u.title) = false) →
      (((t.keywords ++ t.aliases ++ t.tags).map normalize).any fun k =>
        containsSubS (normalize text) k) = true →
      (∀ u ∈ l₁, (((u.keywords ++ u.aliases ++ u.tags).map normalize).any fun k =>
        containsSubS (normalize text) k) = false) →
      findTopicForMessage (l₁ ++ t :: l₂) text = some t) ∧
    (∀ (l₁ : List Topic) (t : Topic) (l₂ : List Topic) (text : String),
      (∀ u ∈ l₁ ++ t :: l₂,
        containsSubS (normalize text) (normalize u.title) = false) →
      (∀ u ∈ l₁ ++ t :: l₂,
        (((u.keywords ++ u.aliases ++ u.tags).map normalize).any fun k =>
          containsSubS (normalize text) k) = false) →
      2 ≤ overlapScore (tokenize (normalize text)) t →
      (∀ u ∈ l₂, overlapScore (tokenize (normalize text)) u ≤
        overlapScore (tokenize (normalize text)) t) →
      (∀ u ∈ l₁, overlapScore (tokenize (normalize text)) u <
        overlapScore (tokenize (normalize text)) t) →
      findTopicForMessage (l₁ ++ t :: l₂) text = some t) ∧
    (∀ (cat : List Topic) (text : String),
      (∀ u ∈ cat, containsSubS (normalize text) (normalize u.title) = false) →
      (∀ u ∈ cat, (((u.keywords ++ u.aliases ++ u.tags).map normalize).any fun k =>
        containsSubS (normalize text) k) = false) →
      (∀ u ∈ cat, overlapScore (tokenize (normalize text)) u < 2) →
      findTopicForMessage cat text = none) ∧
    (∀ s : String,
      (∀ c ∈ (normalize s).data,
        (c = ' ' ∨ (c.isAlphanum = true ∧ isWsChar c = false)) ∧ c.toLower = c) ∧
      noWsRunB (normalize s).data = true ∧
      (∀ x, (normalize s).data.head? = some x → isWsChar x = false) ∧
      (∀ x, (normalize s).data.getLast? = some x → isWsChar x = false)) ∧
    (∀ (cat : List Topic) (text1 text2 : String), text1 = text2 →
      findTopicForMessage cat text1 = findTopicForMessage cat text2) := by
  refine ⟨?_, ?_, ?_, ?_, ?_, fun cat t1 t2 h => by rw [h]⟩
  · intro l₁ t l₂ text hp hall
    simp only [findTopicForMessage]
    rw [find?_first _ l₁ t l₂ hp hall]
  · intro l₁ t l₂ text hnone hp hall
    simp only [findTopicForMessage]
    rw [List.find?_eq_none.2 fun u hu => by rw [hnone u hu]; simp]
    rw [find?_first _ l₁ t l₂ hp hall]
  · intro l₁ t l₂ text hnone1 hnone2 hscore hl₂ hl₁
    simp only [findTopicForMessage]
    rw [List.find?_eq_none.2 fun u hu => by rw [hnone1 u hu]; simp]
    rw [List.find?_eq_none.2 fun u hu => by rw [hnone2 u hu]; simp]
    rw [fuzzyAux_pick (overlapScore (tokenize (normalize text))) l₁ t l₂ none 0
      (by omega) hl₁ hl₂]
    rw [if_pos (by exact hscore)]
  · intro cat text hnone1 hnone2 hsmall
    simp only [findTopicForMessage]
    rw [List.find?_eq_none.2 fun u hu => by rw [hnone1 u hu]; simp]
    rw [List.find?_eq_none.2 fun u hu => by rw [hnone2 u hu]; simp]
    have hb := fuzzyAux_bound (overlapScore (tokenize (normalize text))) 1 cat none 0
      (fun u hu => by have := hsmall u hu; omega) (by omega)
    rcases hr : fuzzyAux (overlapScore (tokenize (normalize text))) cat (none, 0) with ⟨b, sc⟩
    rw [hr] at hb
    rw [if_neg (by simpa using Nat.lt_of_le_of_lt hb (by omega))]
  · intro s
    exact ⟨fun c hc => normalize_chars hc, normalize_noWsRun s,
      fun x hx => normalize_head_nonws hx, fun x hx => normalize_getLast_nonws hx⟩

set_option maxHeartbeats 2000000 in
/-- Witness for C6: a two-topic catalog where no title or keyword matches
and the token-overlap fallback picks the first topic with overlap 2
(`.latch, help.`), plus a title-containment instance. -/
theorem findTopicForMessage_witness :
    findTopicForMessage
        [{ title := "latch help basics", keywords := [], aliases := [],
           tags := [], path := "content/t1.json" },
         { title := "sleep routines", keywords := [], aliases := [],
           tags := [], path := "content/t2.json" }]
        "baby latch help today" =
      some { title := "latch help basics", keywords := [], aliases := [],
             tags := [], path := "content/t1.json" } ∧
    findTopicForMessage
        [{ title := "latch help basics", keywords := [], aliases := [],
           tags := [], path := "content/t1.json" },
         { title := "sleep routines", keywords := [], aliases := [],
           tags := [], path := "content/t2.json" }]
        "tell me about sleep routines please" =
      some { title := "sleep routines", keywords := [], aliases := [],
             tags := [], path := "content/t2.json" } := by
  constructor
  · exact findTopicForMessage_spec.2.2.1 []
      { title := "latch help basics", keywords := [], aliases := [],
        tags := [], path := "content/t1.json" }
      [{ title := "sleep routines", keywords := [], aliases := [],
         tags := [], path := "content/t2.json" }]
      "baby latch help today"
      (by decide) (by decide) (by decide) (by decide) (by decide)
  · exact findTopicForMessage_spec.1
      [{ title := "latch help basics", keywords := [], aliases := [],
         tags := [], path := "content/t1.json" }]
      { title := "sleep routines", keywords := [], aliases := [],
        tags := [], path := "content/t2.json" }
      [] "tell me about sleep routines please" (by decide) (by decide)

theorem fallbackScanGroup_mono (g : List String) :
    ∀ acc : String × Nat, acc.2 ≤ (fallbackScanGroup acc g).2 := by
  induction g with
  | nil => intro acc; exact Nat.le_refl _
  | cons x g ih =>
    intro acc
    unfold fallbackScanGroup
    rw [List.foldl_cons]
    by_cases hc : (collapseWsL (trimS x).data).length > acc.2
    · refine Nat.le_trans ?_ (ih _)
      simp only [hc, if_pos]
      omega
    · refine Nat.le_trans ?_ (ih _)
      simp only [if_neg hc]
      exact Nat.le_refl _

theorem fallbackLoop_cons (g : List String) (gs : List (List String))
    (acc : String × Nat) :
    fallbackLoop (g :: gs) acc =
      if (fallbackScanGroup acc g).2 > 500 then fallbackScanGroup acc g
      else fallbackLoop gs (fallbackScanGroup acc g) := rfl

theorem fallbackLoop_early_stop (gs : List (List String)) :
    ∀ (g : List String) (rest : List (List String)) (acc : String × Nat),
      500 < (fallbackLoop (g :: gs) acc).2 →
      fallbackLoop ((g :: gs) ++ rest) acc = fallbackLoop (g :: gs) acc := by
  induction gs with
  | nil =>
    intro g rest acc h
    have hone : fallbackLoop [g] acc = fallbackScanGroup acc g := by
      rw [fallbackLoop_cons]
      by_cases hc : (fallbackScanGroup acc g).2 > 500
      · rw [if_pos hc]
      · rw [if_neg hc]
        rfl
    rw [hone] at h
    rw [hone]
    show fallbackLoop (g :: rest) acc = fallbackScanGroup acc g
    rw [fallbackLoop_cons, if_pos h]
  | cons g2 gs ih =>
    intro g rest acc h
    rw [show ((g :: g2 :: gs) ++ rest) = g :: ((g2 :: gs) ++ rest) from rfl]
    rw [fallbackLoop_cons g ((g2 :: gs) ++ rest) acc,
      fallbackLoop_cons g (g2 :: gs) acc]
    by_cases hc : (fallbackScanGroup acc g).2 > 500
    · rw [if_pos hc, if_pos hc]
    · rw [if_neg hc, if_neg hc]
      apply ih g2 rest (fallbackScanGroup acc g)
      rw [fallbackLoop_cons g (g2 :: gs) acc, if_neg hc] at h
      exact h

theorem fallbackScanGroup_zero (g : List String) :
    ∀ acc, (∀ x ∈ g, (collapseWsL (trimS x).data).length = 0) →
      fallbackScanGroup acc g = acc := by
  induction g with
  | nil => intro acc _; rfl
  | cons x g ih =>
    intro acc hz
    unfold fallbackScanGroup
    rw [List.foldl_cons]
    rw [show (if (collapseWsL (trimS x).data).length > acc.2
        then (trimS x, (collapseWsL (trimS x).data).length) else acc) = acc by
      rw [if_neg (by rw [hz x (List.mem_cons_self _ _)]; omega)]]
    exact ih acc fun y hy => hz y (List.mem_cons_of_mem x hy)

theorem fallbackExtractText_body (doc : DomDoc)
    (hz : ∀ g ∈ doc.groups, ∀ x ∈ g, (collapseWsL (trimS x).data).length = 0) :
    fallbackExtractText doc = ⟨collapseWsL (trimL doc.bodyText.data)⟩ := by
  have hgen : ∀ gs, (∀ g ∈ gs, ∀ x ∈ g, (collapseWsL (trimS x).data).length = 0) →
      fallbackLoop gs ("", 0) = ("", 0) := by
    intro gs
    induction gs with
    | nil => intro _; rfl
    | cons g gs ih =>
      intro hall
      rw [fallbackLoop_cons,
        fallbackScanGroup_zero g ("", 0) (hall g (List.mem_cons_self _ _))]
      rw [if_neg (by omega)]
      exact ih fun g2 hg2 => hall g2 (List.mem_cons_of_mem g hg2)
  unfold fallbackExtractText
  rw [hgen doc.groups hz]
  rfl

theorem chosenFullText_of_long {primary : Option String} (doc : DomDoc)
    (h : 400 ≤ (trimS (primary.getD "")).data.length) :
    chosenFullText primary doc = trimS (primary.getD "") := by
  unfold chosenFullText
  rw [if_neg ?_]
  simp only [Bool.or_eq_true, not_or]
  constructor
  · intro hemp
    rw [List.isEmpty_iff.1 hemp] at h
    simp at h
  · simp only [decide_eq_true_eq]
    omega

theorem chosenFullText_of_short {primary : Option String} (doc : DomDoc)
    (h : (trimS (primary.getD "")).data.length < 400) :
    chosenFullText primary doc = trimS (fallbackExtractText doc) := by
  unfold chosenFullText
  rw [if_pos ?_]
  simp only [Bool.or_eq_true]
  right
  simp only [decide_eq_true_eq]
  exact h

/-- Claim C7: the `/api/fetch` extraction tail.  (1) When the trimmed
primary (Readability) text has at least 400 characters the structural
fallback is never consulted — the result is independent of the DOM;
(2)/(3) the extracted full text is the trimmed fallback exactly when the
trimmed primary is shorter than 400 characters, else the trimmed primary;
(4) the request fails with HTTP 422 exactly when the final extracted text
is shorter than 200 characters, and no article is returned; (5) on
success the returned text is the first `min(maxChars, 200000)` characters
of the extracted text, `charCount` is the full extracted length, and
`truncated` holds exactly when the extracted text exceeds the cap;
(6) the cap defaults to 50000 and never exceeds 200000; (7) the selector
loop stops early once the best candidate exceeds 500 collapsed
characters — later selectors cannot change the result; (8) when no
selector candidate has any text, the whole body text is used. -/
theorem extractRoute_spec :
    (∀ (p : Option String) (d1 d2 : DomDoc) (mc : Option Nat),
      400 ≤ (trimS (p.getD "")).data.length →
      extractRoute p d1 mc = extractRoute p d2 mc) ∧
    (∀ (p : Option String) (d : DomDoc),
      (trimS (p.getD "")).data.length < 400 →
      chosenFullText p d = trimS (fallbackExtractText d)) ∧
    (∀ (p : Option String) (d : DomDoc),
      400 ≤ (trimS (p.getD "")).data.length →
      chosenFullText p d = trimS (p.getD "")) ∧
    (∀ (p : Option String) (d : DomDoc) (mc : Option Nat),
      extractRoute p d mc = Except.error 422 ↔
        (chosenFullText p d).data.length < 200) ∧
    (∀ (p : Option String) (d : DomDoc) (mc : Option Nat) (r : ArticleOut),
      extractRoute p d mc = Except.ok r →
      r.text.data = (chosenFullText p d).data.take (effectiveMaxChars mc) ∧
      r.text.data.length =
        min (effectiveMaxChars mc) (chosenFullText p d).data.length ∧
      r.charCount = (chosenFullText p d).data.length ∧
      (r.truncated = true ↔ effectiveMaxChars mc < (chosenFullText p d).data.length)) ∧
    (effectiveMaxChars none = 50000 ∧ ∀ mc, effectiveMaxChars (some mc) ≤ 200000) ∧
    (∀ (g : List String) (gs rest : List (List String)) (acc : String × Nat),
      500 < (fallbackLoop (g :: gs) acc).2 →
      fallbackLoop ((g :: gs) ++ rest) acc = fallbackLoop (g :: gs) acc) ∧
    (∀ doc : DomDoc,
      (∀ g ∈ doc.groups, ∀ x ∈ g, (collapseWsL (trimS x).data).length = 0) →
      fallbackExtractText doc = ⟨collapseWsL (trimL doc.bodyText.data)⟩) := by
  have hcond : ∀ (p : Option String) (d : DomDoc),
      ((chosenFullText p d).data.isEmpty ||
        decide ((chosenFullText p d).data.length < 200)) = true ↔
      (chosenFullText p d).data.length < 200 := by
    intro p d
    constructor
    · intro h
      simp only [Bool.or_eq_true] at h
      rcases h with h | h
      · rw [List.isEmpty_iff.1 h]
        simp
      · exact of_decide_eq_true h
    · intro h
      simp only [Bool.or_eq_true]
      right
      exact decide_eq_true h
  refine ⟨?_, fun p d h => chosenFullText_of_short d h,
    fun p d h => chosenFullText_of_long d h, ?_, ?_,
    ⟨rfl, fun mc => min_le_right _ _⟩, fun g gs rest acc h =>
      fallbackLoop_early_stop gs g rest acc h,
    fun doc h => fallbackExtractText_body doc h⟩
  · intro p d1 d2 mc h
    unfold extractRoute
    rw [chosenFullText_of_long d1 h, chosenFullText_of_long d2 h]
  · intro p d mc
    unfold extractRoute
    by_cases h : ((chosenFullText p d).data.isEmpty ||
        decide ((chosenFullText p d).data.length < 200)) = true
    · rw [if_pos h]
      simp only [true_iff]
      exact (hcond p d).1 h
    · rw [if_neg h]
      constructor
      · intro hcontra
        exact absurd hcontra (by simp)
      · intro hlen
        exact absurd ((hcond p d).2 hlen) h
  · intro p d mc r hok
    unfold extractRoute at hok
    by_cases h : ((chosenFullText p d).data.isEmpty ||
        decide ((chosenFullText p d).data.length < 200)) = true
    · rw [if_pos h] at hok
      exact absurd hok (by simp)
    · rw [if_neg h] at hok
      have hr := Except.ok.inj hok.symm
      rw [hr]
      refine ⟨rfl, ?_, rfl, ?_⟩
      · rw [List.length_take]
      · simp only [decide_eq_true_eq]

set_option maxRecDepth 4000 in
/-- Witness for C7: a 400-character primary text makes the result
DOM-independent; a short primary falls back, and when the fallback also
yields too little the route answers 422. -/
theorem extractRoute_witness :
    extractRoute (some (String.mk (List.replicate 400 'a')))
        { groups := [[" filler candidate "]], bodyText := "ignored body" } none =
      extractRoute (some (String.mk (List.replicate 400 'a')))
        { groups := [], bodyText := "other" } none ∧
    chosenFullText (some "tiny") { groups := [], bodyText := " just the body " } =
      trimS (fallbackExtractText { groups := [], bodyText := " just the body " }) ∧
    extractRoute (some "tiny") { groups := [], bodyText := " just the body " } none =
      Except.error 422 := by
  refine ⟨?_, ?_, ?_⟩
  · exact extractRoute_spec.1 (some (String.mk (List.replicate 400 'a')))
      { groups := [[" filler candidate "]], bodyText := "ignored body" }
      { groups := [], bodyText := "other" } none (by decide)
  · exact extractRoute_spec.2.1 (some "tiny")
      { groups := [], bodyText := " just the body " } (by decide)
  · exact (extractRoute_spec.2.2.2.1 (some "tiny")
      { groups := [], bodyText := " just the body " } none).2 (by decide)

end Kozani
